import Mathlib

/-!
Verification development for the v2 statement-distribution protocol engine
(`polkadot/node/network/statement-distribution/src/v2/mod.rs`).

The orchestrator handlers of `mod.rs` are embedded as pure Lean functions over
an explicit `State`.  The collaborator components whose sources are not part of
this repository snapshot (`cluster.rs`, `grid.rs`, `groups.rs`, `requests.rs`,
`statement_store.rs`, `candidates.rs`, the backing implicit view) are modelled
from the specification at their interface boundary: their queries are abstract
function fields of the corresponding structures, and their data-retention
behaviour follows the specification's words.
-/

namespace StatementDistV2

/-- Block hashes, used both for relay parents and generic hashes. -/
abbrev Hash := Nat
abbrev CandidateHash := Nat
abbrev PeerId := Nat
abbrev ValidatorIndex := Nat
abbrev GroupIndex := Nat
abbrev ParaId := Nat
abbrev SessionIndex := Nat
abbrev AuthorityDiscoveryId := Nat
abbrev ValidatorId := Nat

/-- Reputation-change constants of `v2/mod.rs` (the subset reachable from the
modelled handlers), as a closed enumeration. -/
inductive Rep
| COST_UNEXPECTED_STATEMENT_NOT_VALIDATOR
| COST_UNEXPECTED_STATEMENT_VALIDATOR_NOT_FOUND
| COST_UNEXPECTED_STATEMENT_INVALID_SENDER
| COST_UNEXPECTED_STATEMENT_BAD_ADVERTISE
| COST_UNEXPECTED_STATEMENT_CLUSTER_REJECTED
| COST_UNEXPECTED_STATEMENT_NOT_IN_GROUP
| COST_UNEXPECTED_STATEMENT_MISSING_KNOWLEDGE
| COST_EXCESSIVE_SECONDED
| COST_DISABLED_VALIDATOR
| COST_UNEXPECTED_MANIFEST_MISSING_KNOWLEDGE
| COST_UNEXPECTED_MANIFEST_DISALLOWED
| COST_UNEXPECTED_MANIFEST_PEER_UNKNOWN
| COST_CONFLICTING_MANIFEST
| COST_INSUFFICIENT_MANIFEST
| COST_MALFORMED_MANIFEST
| COST_UNEXPECTED_ACKNOWLEDGEMENT_UNKNOWN_CANDIDATE
| COST_INVALID_SIGNATURE
| COST_INACCURATE_ADVERTISEMENT
| BENEFIT_VALID_STATEMENT
| BENEFIT_VALID_STATEMENT_FIRST
deriving DecidableEq

/-- Compact statements: `Seconded(candidate_hash)` or `Valid(candidate_hash)`. -/
inductive CompactStatement
| Seconded (h : CandidateHash)
| Valid (h : CandidateHash)
deriving DecidableEq

def CompactStatement.candidate_hash : CompactStatement → CandidateHash
| .Seconded h => h
| .Valid h => h

/-- A statement-knowledge bitmap over the seats of one group: one bit per seat
for `Seconded` and one for `Valid` (network-protocol `StatementFilter`). -/
structure StatementFilter where
  seconded_in_group : List Bool
  validated_in_group : List Bool
deriving DecidableEq

def StatementFilter.blank (n : Nat) : StatementFilter :=
  ⟨List.replicate n false, List.replicate n false⟩

/-- Modelled from the spec (the `StatementFilter` mask helpers live in the
network-protocol crate, outside this snapshot): clear every seconded bit whose
mask bit is set. -/
def StatementFilter.mask_seconded (f : StatementFilter) (mask : List Bool) : StatementFilter :=
  { f with seconded_in_group := f.seconded_in_group.zipWith (fun b m => b && !m) mask }

/-- Modelled from the spec: clear every validated bit whose mask bit is set. -/
def StatementFilter.mask_valid (f : StatementFilter) (mask : List Bool) : StatementFilter :=
  { f with validated_in_group := f.validated_in_group.zipWith (fun b m => b && !m) mask }

/-- Modelled from the spec (§4.1 Groups; `groups.rs` is not part of the provided
sources): the per-session validator-group partition together with the configured
backing-threshold rule (threshold capped at group size). -/
structure Groups where
  groups : List (List ValidatorIndex)
  backing_threshold : Nat

def Groups.all (g : Groups) : List (List ValidatorIndex) := g.groups

def Groups.get (g : Groups) (i : GroupIndex) : Option (List ValidatorIndex) := g.groups.get? i

def Groups.by_validator_index (g : Groups) (v : ValidatorIndex) : Option GroupIndex :=
  g.groups.findIdx? (fun xs => xs.contains v)

def Groups.get_size_and_backing_threshold (g : Groups) (i : GroupIndex) : Option (Nat × Nat) :=
  (g.get i).map (fun xs => (xs.length, min g.backing_threshold xs.length))

/-- Origin tag for statement-store insertion. -/
inductive StatementOrigin | Local | Remote
deriving DecidableEq

/-- Result of a statement-store insertion: fresh (`Ok(true)`), already known
(`Ok(false)`), or the validator is unknown to the session (`Err`). -/
inductive InsertOutcome | Fresh | Known | ValidatorUnknown
deriving DecidableEq

/-- Modelled from the spec (§4.2 StatementStore; `statement_store.rs` is not part
of the provided sources): the store is represented at its interface, with the
outcome of `insert` and the `seconded_count` query as abstract functions. -/
structure StatementStore where
  insert_outcome : ValidatorIndex → CompactStatement → StatementOrigin → InsertOutcome
  seconded_count : ValidatorIndex → Nat

/-- Cluster-tracker acceptance: import normally, or accept "with prejudice"
(recorded but not re-circulated, no reputation benefit owed). -/
inductive ClusterAccept | Ok | WithPrejudice
deriving DecidableEq

/-- Cluster-tracker rejection reasons for an incoming statement. -/
inductive ClusterRejectIncoming | ExcessiveSeconded | CandidateUnknown | Duplicate | NotInGroup
deriving DecidableEq

/-- Modelled from the spec (§4.3 ClusterTracker; `cluster.rs` is not part of the
provided sources): admissibility queries are abstract functions of the tracker
value; bookkeeping updates do not affect the properties proved here. -/
structure ClusterTracker where
  targets : List ValidatorIndex
  can_send : ValidatorIndex → ValidatorIndex → CompactStatement → Bool
  can_receive : ValidatorIndex → ValidatorIndex → CompactStatement →
    Except ClusterRejectIncoming ClusterAccept
  senders_for_originator : ValidatorIndex → List ValidatorIndex
  knows_candidate : ValidatorIndex → CandidateHash → Bool

/-- Manifest kinds: a full manifest or an acknowledgement. -/
inductive ManifestKind | Full | Acknowledgement
deriving DecidableEq

structure ManifestSummary where
  claimed_parent_hash : Hash
  claimed_group_index : GroupIndex
  statement_knowledge : StatementFilter
deriving DecidableEq

/-- Grid-tracker manifest-import rejection reasons. -/
inductive ManifestImportError | Conflicting | Overflow | Insufficient | Malformed | Disallowed
deriving DecidableEq

/-- Modelled from the spec (§4.4 grid topology; `grid.rs` is not part of the
provided sources): which validators the topology allows as senders to the local
node, per group and manifest kind. -/
structure SessionTopologyView where
  iter_sending_for_group : GroupIndex → ManifestKind → List ValidatorIndex

/-- Modelled from the spec (§4.4 GridTracker; `grid.rs` is not part of the
provided sources): manifest import and statement-eligibility queries are
abstract functions of the tracker value. -/
structure GridTracker where
  direct_statement_targets : ValidatorIndex → CompactStatement → List ValidatorIndex
  direct_statement_providers : ValidatorIndex → CompactStatement → List (ValidatorIndex × Bool)
  import_manifest : CandidateHash → Nat → ManifestSummary → ManifestKind → ValidatorIndex →
    Except ManifestImportError Bool
  advertised_statements : ValidatorIndex → CandidateHash → Option StatementFilter

/-- The data of a confirmed candidate which the orchestrator reads back. -/
structure ConfirmedCandidate where
  relay_parent : Hash
  parent_head_data_hash : Hash
  group_index : GroupIndex
  para_id : ParaId
deriving DecidableEq

/-- Lifecycle state of a candidate entry: advertised-only or confirmed. -/
inductive CandidateState
| Unconfirmed (relay_parents : List Hash)
| Confirmed (c : ConfirmedCandidate)

def CandidateState.relay_parents : CandidateState → List Hash
| .Unconfirmed rps => rps
| .Confirmed cc => [cc.relay_parent]

/-- Modelled from the spec (§4.5 Candidates; `candidates.rs` is not part of the
provided sources): entries record the per-candidate lifecycle state; the
advertisement-insertion outcome and importability are abstract at the
interface. -/
structure Candidates where
  entries : List (CandidateHash × CandidateState)
  insert_unconfirmed_ok : PeerId → CandidateHash → Hash → GroupIndex →
    Option (Hash × ParaId) → Bool
  importable : CandidateHash → Bool

def Candidates.get_confirmed (c : Candidates) (h : CandidateHash) : Option ConfirmedCandidate :=
  match c.entries.lookup h with
  | some (.Confirmed cc) => some cc
  | _ => none

def Candidates.is_confirmed (c : Candidates) (h : CandidateHash) : Bool :=
  (c.get_confirmed h).isSome

def Candidates.is_importable (c : Candidates) (h : CandidateHash) : Bool := c.importable h

/-- Modelled from the spec (§4.5): `on_deactivate_leaves` prunes candidates no
longer reachable from any live relay parent; the callback answers whether a
relay parent still has per-relay-parent state. -/
def Candidates.on_deactivate_leaves (c : Candidates) (live : Hash → Bool) : Candidates :=
  { c with entries := c.entries.filter (fun e => (e.2.relay_parents).any live) }

/-- Per-relay-parent state of the local node when it is an active validator
(`ActiveValidatorState` in `mod.rs`). -/
structure ActiveValidatorState where
  index : ValidatorIndex
  group : GroupIndex
  assignments : List ParaId
  cluster_tracker : ClusterTracker

/-- Per-relay-parent local validator state (`LocalValidatorState` in `mod.rs`). -/
structure LocalValidatorState where
  grid_tracker : GridTracker
  active : Option ActiveValidatorState

/-- Per-relay-parent protocol state (`PerRelayParentState` in `mod.rs`). -/
structure PerRelayParentState where
  local_validator : Option LocalValidatorState
  statement_store : StatementStore
  session : SessionIndex
  groups_per_para : List (ParaId × List GroupIndex)
  disabled_validators : List ValidatorIndex
  assignments_per_group : List (GroupIndex × List ParaId)

def PerRelayParentState.active_validator_state (s : PerRelayParentState) :
    Option ActiveValidatorState :=
  s.local_validator.bind (fun l => l.active)

/-- Whether the given validator is disabled at this relay parent. -/
def PerRelayParentState.is_disabled (s : PerRelayParentState) (v : ValidatorIndex) : Bool :=
  s.disabled_validators.contains v

/-- Disabled bitmask for a backing group: bit `i` is `true` when `group[i]` is
disabled. -/
def PerRelayParentState.disabled_bitmask (s : PerRelayParentState)
    (group : List ValidatorIndex) : List Bool :=
  group.map (fun v => s.is_disabled v)

/-- The session-info fields read by the modelled handlers. -/
structure SessionInfo where
  validators : List ValidatorId
  discovery_keys : List AuthorityDiscoveryId

/-- Whether the local node is an active or inactive validator of the session. -/
inductive LocalValidatorIndex | Active (v : ValidatorIndex) | Inactive
deriving DecidableEq

/-- Per-session protocol state (`PerSessionState` in `mod.rs`). -/
structure PerSessionState where
  session_info : SessionInfo
  groups : Groups
  authority_lookup : List (AuthorityDiscoveryId × ValidatorIndex)
  grid_view : Option SessionTopologyView
  local_validator : Option LocalValidatorIndex

/-- The local node is known to be neither an active nor an inactive validator
(`false` also while the topology is unknown). -/
def PerSessionState.is_not_validator (s : PerSessionState) : Bool :=
  s.grid_view.isSome && s.local_validator.isNone

/-- Per-peer connection state (`PeerState` in `mod.rs`); all connected peers use
protocol version 3, so the version field is omitted. -/
structure PeerState where
  view : List Hash
  implicit_view : List Hash
  discovery_ids : Option (List AuthorityDiscoveryId)

def PeerState.knows_relay_parent (p : PeerState) (relay_parent : Hash) : Bool :=
  p.implicit_view.contains relay_parent || p.view.contains relay_parent

def PeerState.is_authority (p : PeerState) (authority_id : AuthorityDiscoveryId) : Bool :=
  match p.discovery_ids with
  | some xs => xs.contains authority_id
  | none => false

def PeerState.iter_known_discovery_ids (p : PeerState) : List AuthorityDiscoveryId :=
  match p.discovery_ids with
  | some xs => xs
  | none => []

/-- Modelled from the spec (glossary "Implicit view"; the backing implicit view
lives in `polkadot-node-subsystem-util`, outside this snapshot): each active
leaf carries its allowed relay parents (its ancestors, including itself). -/
structure ImplicitView where
  leaves : List (Hash × List Hash)

/-- Modelled from the spec: deactivating a leaf removes it and returns the relay
parents which are reachable from no remaining active leaf. -/
def ImplicitView.deactivate_leaf (v : ImplicitView) (leaf : Hash) :
    List Hash × ImplicitView :=
  match v.leaves.lookup leaf with
  | none => ([], v)
  | some rps =>
    let rest := v.leaves.filter (fun e => !(e.1 == leaf))
    let pruned := rps.filter (fun rp => !(rest.any (fun e => e.2.contains rp)))
    (pruned, ⟨rest⟩)

/-- A pending request entry (spec §3 PendingRequest / §4.6 RequestManager). -/
structure RequestEntry where
  relay_parent : Hash
  candidate_hash : CandidateHash
  group_index : GroupIndex
  peers : List PeerId
  cluster_priority : Bool
deriving DecidableEq

/-- Modelled from the spec (§4.6 RequestManager; `requests.rs` is not part of
the provided sources): the manager holds pending request entries;
`remove_by_relay_parent` drops every entry whose relay parent matches. -/
structure RequestManager where
  requests : List RequestEntry
deriving DecidableEq

def RequestManager.remove_by_relay_parent (m : RequestManager) (relay_parent : Hash) :
    RequestManager :=
  ⟨m.requests.filter (fun r => !(r.relay_parent == relay_parent))⟩

/-- The orchestrator state (`State` in `mod.rs`); the keystore and the response
manager carry no data relevant to the modelled handlers. Maps are association
lists. The cached-topology payload is irrelevant and represented by `Nat`. -/
structure State where
  implicit_view : ImplicitView
  candidates : Candidates
  per_relay_parent : List (Hash × PerRelayParentState)
  per_session : List (SessionIndex × PerSessionState)
  unused_topologies : List (SessionIndex × Nat)
  peers : List (PeerId × PeerState)
  authorities : List (AuthorityDiscoveryId × PeerId)
  request_manager : RequestManager

/-- Greatest element of a list of naturals (`keys().max()`). -/
def list_max : List Nat → Option Nat
| [] => none
| x :: xs =>
  match list_max xs with
  | none => some x
  | some m => some (max x m)

/-- One iteration of the leaf loop of `handle_deactivate_leaves`: deactivate the
leaf in the implicit view; for every relay parent pruned by that, remove its
per-relay-parent state and — exactly as the source does — call
`request_manager.remove_by_relay_parent(*leaf)` with the deactivated *leaf*
hash. -/
def deactivate_leaf_step (s : State) (leaf : Hash) : State :=
  let pr := s.implicit_view.deactivate_leaf leaf
  let res := pr.1.foldl
    (fun (acc : List (Hash × PerRelayParentState) × RequestManager) (pruned_rp : Hash) =>
      (acc.1.filter (fun e => !(e.1 == pruned_rp)), acc.2.remove_by_relay_parent leaf))
    (s.per_relay_parent, s.request_manager)
  { s with implicit_view := pr.2, per_relay_parent := res.1, request_manager := res.2 }

/-- Relay parents still holding per-relay-parent state
(the `|h| state.per_relay_parent.contains_key(h)` callback). -/
def live_relay_parent (s : State) (h : Hash) : Bool :=
  (s.per_relay_parent.lookup h).isSome

/-- Session indices referenced by the remaining per-relay-parent states. -/
def referenced_sessions (s : State) : List SessionIndex :=
  s.per_relay_parent.map (fun e => e.2.session)

/-- The cleanup stage of `handle_deactivate_leaves` after the leaf loop: prune
candidates against the remaining live relay parents, retain only sessions still
referenced by some per-relay-parent state, and retain unused topologies for
referenced sessions or the latest seen session. -/
def deactivate_cleanup (s1 : State) : State :=
  let cands := s1.candidates.on_deactivate_leaves (live_relay_parent s1)
  let sessions := referenced_sessions s1
  let new_per_session := s1.per_session.filter (fun e => sessions.contains e.1)
  let last_session_index := list_max (s1.unused_topologies.map Prod.fst)
  let new_unused := s1.unused_topologies.filter
    (fun e => sessions.contains e.1 || last_session_index == some e.1)
  { s1 with candidates := cands, per_session := new_per_session,
            unused_topologies := new_unused }

/-- `handle_deactivate_leaves` (`mod.rs` lines 787–824): deactivate each leaf,
pruning per-relay-parent state and requests, then run the cleanup stage. -/
def handle_deactivate_leaves (s : State) (leaves : List Hash) : State :=
  deactivate_cleanup (leaves.foldl deactivate_leaf_step s)

/-- The success value of `handle_incoming_manifest_common`: whether to
acknowledge immediately, and the grid sender's validator index. -/
structure ManifestImportSuccess where
  acknowledge : Bool
  sender_index : ValidatorIndex
deriving DecidableEq

/-- Observable outcome of `handle_incoming_manifest_common`: the reputation
changes applied and the returned value (`None` means the message was dropped). -/
structure ManifestCommonOutput where
  reputation : List (PeerId × Rep)
  result : Option ManifestImportSuccess
deriving DecidableEq

/-- The grid sender-index lookup of `handle_incoming_manifest_common`
(`mod.rs` lines 2298–2303): the first topology-allowed sender for the claimed
group whose discovery key the sending peer controls. -/
def manifest_sender_index (peer_state : PeerState) (per_session : PerSessionState)
    (grid_topology : SessionTopologyView) (group : GroupIndex) (kind : ManifestKind) :
    Option ValidatorIndex :=
  ((((grid_topology.iter_sending_for_group group kind).filterMap
      (fun i => (per_session.session_info.discovery_keys.get? i).map (fun ad => (i, ad)))).filter
    (fun p => peer_state.is_authority p.2)).head?).map (fun p => p.1)

/-- Statement knowledge with disabled validators masked out
(`mod.rs` lines 2323–2327). -/
def masked_manifest_summary (relay_parent_state : PerRelayParentState)
    (per_session : PerSessionState) (ms : ManifestSummary) : ManifestSummary :=
  let group := (per_session.groups.get ms.claimed_group_index).getD []
  let disabled_mask := relay_parent_state.disabled_bitmask group
  { ms with statement_knowledge :=
      (ms.statement_knowledge.mask_seconded disabled_mask).mask_valid disabled_mask }

/-- The per-para seconding limit used for manifest import
(`mod.rs` lines 2331–2336): how many of the group's assignments are the manifest
para. -/
def manifest_seconding_limit (assignments : List ParaId) (para_id : ParaId) : Nat :=
  (assignments.filter (fun para => para == para_id)).length

/-- `handle_incoming_manifest_common` (`mod.rs` lines 2240–2395): sanity checks,
topology authorization, grid-tracker import with the per-error reputation costs,
and unconfirmed-candidate insertion. -/
def handle_incoming_manifest_common (s : State) (peer : PeerId)
    (candidate_hash : CandidateHash) (relay_parent : Hash) (para_id : ParaId)
    (manifest_summary : ManifestSummary) (manifest_kind : ManifestKind) :
    ManifestCommonOutput :=
  match s.peers.lookup peer with
  | none => ⟨[], none⟩
  | some peer_state =>
  match s.per_relay_parent.lookup relay_parent with
  | none => ⟨[(peer, .COST_UNEXPECTED_MANIFEST_MISSING_KNOWLEDGE)], none⟩
  | some relay_parent_state =>
  match s.per_session.lookup relay_parent_state.session with
  | none => ⟨[], none⟩
  | some per_session =>
  match relay_parent_state.local_validator with
  | none =>
    if per_session.is_not_validator then
      ⟨[(peer, .COST_UNEXPECTED_MANIFEST_MISSING_KNOWLEDGE)], none⟩
    else ⟨[], none⟩
  | some local_validator =>
  match relay_parent_state.groups_per_para.lookup para_id with
  | none => ⟨[(peer, .COST_MALFORMED_MANIFEST)], none⟩
  | some expected_groups =>
  if !(expected_groups.any (fun g => g == manifest_summary.claimed_group_index)) then
    ⟨[(peer, .COST_MALFORMED_MANIFEST)], none⟩
  else
  match per_session.grid_view with
  | none => ⟨[], none⟩
  | some grid_topology =>
  match manifest_sender_index peer_state per_session grid_topology
      manifest_summary.claimed_group_index manifest_kind with
  | none => ⟨[(peer, .COST_UNEXPECTED_MANIFEST_PEER_UNKNOWN)], none⟩
  | some sender_index =>
  let group_index := manifest_summary.claimed_group_index
  let claimed_parent_hash := manifest_summary.claimed_parent_hash
  match relay_parent_state.assignments_per_group.lookup group_index with
  | none => ⟨[], none⟩
  | some assignments =>
  let seconding_limit := manifest_seconding_limit assignments para_id
  match local_validator.grid_tracker.import_manifest candidate_hash seconding_limit
      (masked_manifest_summary relay_parent_state per_session manifest_summary)
      manifest_kind sender_index with
  | .error .Conflicting => ⟨[(peer, .COST_CONFLICTING_MANIFEST)], none⟩
  | .error .Overflow => ⟨[(peer, .COST_EXCESSIVE_SECONDED)], none⟩
  | .error .Insufficient => ⟨[(peer, .COST_INSUFFICIENT_MANIFEST)], none⟩
  | .error .Malformed => ⟨[(peer, .COST_MALFORMED_MANIFEST)], none⟩
  | .error .Disallowed => ⟨[(peer, .COST_UNEXPECTED_MANIFEST_DISALLOWED)], none⟩
  | .ok acknowledge =>
    if s.candidates.insert_unconfirmed_ok peer candidate_hash relay_parent group_index
        (some (claimed_parent_hash, para_id)) = false then
      ⟨[(peer, .COST_INACCURATE_ADVERTISEMENT)], none⟩
    else
      ⟨[], some ⟨acknowledge, sender_index⟩⟩

/-- A `BackedCandidateAcknowledgement` network message. -/
structure BackedCandidateAcknowledgement where
  candidate_hash : CandidateHash
  statement_knowledge : StatementFilter
deriving DecidableEq

/-- `handle_incoming_acknowledgement` (`mod.rs` lines 2598–2660, up to the shared
manifest handling): an acknowledgement for a candidate that is not confirmed is
answered with `COST_UNEXPECTED_ACKNOWLEDGEMENT_UNKNOWN_CANDIDATE` and dropped;
otherwise the candidate's stored data feeds `handle_incoming_manifest_common`.
The post-acknowledgement statement messages sent on success are outside the
properties proved here. -/
def handle_incoming_acknowledgement (s : State) (peer : PeerId)
    (acknowledgement : BackedCandidateAcknowledgement) : ManifestCommonOutput :=
  let candidate_hash := acknowledgement.candidate_hash
  match s.candidates.get_confirmed candidate_hash with
  | none => ⟨[(peer, .COST_UNEXPECTED_ACKNOWLEDGEMENT_UNKNOWN_CANDIDATE)], none⟩
  | some c =>
    handle_incoming_manifest_common s peer candidate_hash c.relay_parent c.para_id
      ⟨c.parent_head_data_hash, c.group_index, acknowledgement.statement_knowledge⟩
      .Acknowledgement

/-- Errors surfaced to the caller of `share_local_statement`. -/
inductive JfyiError | InvalidShare
deriving DecidableEq

/-- The candidate-receipt fields read by `share_local_statement`. -/
structure CandidateReceiptData where
  para_id : ParaId
  relay_parent : Hash
  candidate_hash : CandidateHash
deriving DecidableEq

/-- A full statement with persisted validation data (the data itself is
irrelevant to the modelled control flow and is represented by `Nat`). -/
inductive FullStatementWithPVD
| Seconded (c : CandidateReceiptData) (pvd : Nat)
| Valid (h : CandidateHash)
deriving DecidableEq

def FullStatementWithPVD.candidate_hash : FullStatementWithPVD → CandidateHash
| .Seconded c _ => c.candidate_hash
| .Valid h => h

/-- A signed full statement as received from the backing collaborator. -/
structure SignedFullStatement where
  payload : FullStatementWithPVD
  validator_index : ValidatorIndex
deriving DecidableEq

def SignedFullStatement.is_seconded (st : SignedFullStatement) : Bool :=
  match st.payload with
  | .Seconded _ _ => true
  | .Valid _ => false

def SignedFullStatement.to_compact (st : SignedFullStatement) : CompactStatement :=
  match st.payload with
  | .Seconded c _ => .Seconded c.candidate_hash
  | .Valid h => .Valid h

/-- The expected (para id, relay parent) of a shared statement
(`mod.rs` lines 1171–1176): from the receipt for `Seconded`, from the confirmed
candidate for `Valid`. -/
def share_expected (candidates : Candidates) (st : SignedFullStatement) :
    Option (ParaId × Hash) :=
  match st.payload with
  | .Seconded c _ => some (c.para_id, c.relay_parent)
  | .Valid h => (candidates.get_confirmed h).map (fun c => (c.para_id, c.relay_parent))

/-- Observable outcome of `share_local_statement`: the returned result together
with whether `confirm_candidate` was reached, whether the statement entered the
statement store fresh, and whether it was circulated. -/
structure ShareOutcome where
  result : Except JfyiError Unit
  confirm_candidate_called : Bool
  imported : Bool
  circulated : Bool

/-- `share_local_statement` (`mod.rs` lines 1139–1278): validates the sharer's
role, seconding budget and assignment, then confirms (for `Seconded`), imports
and circulates the statement. -/
def share_local_statement (s : State) (relay_parent : Hash)
    (statement : SignedFullStatement) : ShareOutcome :=
  match s.per_relay_parent.lookup relay_parent with
  | none => ⟨.error .InvalidShare, false, false, false⟩
  | some per_relay_parent =>
  match s.per_session.lookup per_relay_parent.session with
  | none => ⟨.ok (), false, false, false⟩
  | some _per_session =>
  match per_relay_parent.active_validator_state with
  | none => ⟨.error .InvalidShare, false, false, false⟩
  | some l =>
    let local_index := l.index
    let local_assignments := l.assignments
    match share_expected s.candidates statement with
    | none => ⟨.error .InvalidShare, false, false, false⟩
    | some (expected_para, expected_relay_parent) =>
      if local_index ≠ statement.validator_index then
        ⟨.error .InvalidShare, false, false, false⟩
      else
        let seconding_limit := local_assignments.length
        if statement.is_seconded &&
            decide (seconding_limit ≤
              per_relay_parent.statement_store.seconded_count local_index) then
          ⟨.error .InvalidShare, false, false, false⟩
        else if !(local_assignments.contains expected_para) ||
            relay_parent ≠ expected_relay_parent then
          ⟨.error .InvalidShare, false, false, false⟩
        else
          let compact_statement := statement.to_compact
          let confirm_candidate_called := statement.is_seconded
          match per_relay_parent.statement_store.insert_outcome local_index
              compact_statement .Local with
          | .Known => ⟨.error .InvalidShare, confirm_candidate_called, false, false⟩
          | .ValidatorUnknown => ⟨.error .InvalidShare, confirm_candidate_called, false, false⟩
          | .Fresh => ⟨.ok (), confirm_candidate_called, true, true⟩

/-- An unchecked signed statement from the network; signature verification is a
capability used, not implemented (spec §1), so validity is carried as a flag. -/
structure UncheckedSignedStatement where
  validator_index : ValidatorIndex
  payload : CompactStatement
  signature_valid : Bool
deriving DecidableEq

/-- `check_statement_signature` (`mod.rs` lines 1449–1461): the claimed
validator must exist in the session and the signature must check out. -/
def check_statement_signature (validators : List ValidatorId)
    (statement : UncheckedSignedStatement) : Except Unit UncheckedSignedStatement :=
  match validators.get? statement.validator_index with
  | none => .error ()
  | some _ => if statement.signature_valid then .ok statement else .error ()

/-- `handle_cluster_statement` (`mod.rs` lines 1782–1825): cluster admissibility,
then signature check; `Ok none` means accepted with prejudice (not imported). -/
def handle_cluster_statement (cluster_tracker : ClusterTracker)
    (session_info : SessionInfo) (statement : UncheckedSignedStatement)
    (cluster_sender_index : ValidatorIndex) :
    Except Rep (Option UncheckedSignedStatement) :=
  let should_import : Except Rep Bool :=
    match cluster_tracker.can_receive cluster_sender_index statement.validator_index
        statement.payload with
    | .ok .Ok => .ok true
    | .ok .WithPrejudice => .ok false
    | .error .ExcessiveSeconded => .error .COST_EXCESSIVE_SECONDED
    | .error .CandidateUnknown => .error .COST_UNEXPECTED_STATEMENT_CLUSTER_REJECTED
    | .error .Duplicate => .error .COST_UNEXPECTED_STATEMENT_CLUSTER_REJECTED
    | .error .NotInGroup => .error .COST_UNEXPECTED_STATEMENT_NOT_IN_GROUP
  match should_import with
  | .error r => .error r
  | .ok si =>
    match check_statement_signature session_info.validators statement with
    | .error _ => .error .COST_INVALID_SIGNATURE
    | .ok checked => .ok (if si then some checked else none)

/-- `handle_grid_statement` (`mod.rs` lines 1832–1860): signature check, then
grid bookkeeping. -/
def handle_grid_statement (session_info : SessionInfo)
    (statement : UncheckedSignedStatement) : Except Rep UncheckedSignedStatement :=
  match check_statement_signature session_info.validators statement with
  | .error _ => .error .COST_INVALID_SIGNATURE
  | .ok checked => .ok checked

/-- The cluster sender-index lookup of `handle_incoming_statement`
(`mod.rs` lines 1575–1596): the first allowed cluster sender for the originator
whose discovery key the sending peer controls. -/
def cluster_sender_index (active : Option ActiveValidatorState)
    (session_info : SessionInfo) (peer_state : PeerState)
    (originator : ValidatorIndex) : Option ValidatorIndex :=
  let allowed_senders :=
    match active with
    | some a => a.cluster_tracker.senders_for_originator originator
    | none => []
  (((allowed_senders.filterMap
      (fun i => (session_info.discovery_keys.get? i).map (fun ad => (i, ad)))).filter
    (fun p => peer_state.is_authority p.2)).head?).map (fun p => p.1)

/-- The grid sender-index lookup of `handle_incoming_statement`
(`mod.rs` lines 1617–1633): the first eligible grid provider whose discovery
key the sending peer controls, with whether that validator already knows the
statement. -/
def grid_sender_index (local_validator : LocalValidatorState)
    (session_info : SessionInfo) (peer_state : PeerState)
    (originator : ValidatorIndex) (payload : CompactStatement) :
    Option (ValidatorIndex × Bool) :=
  ((((local_validator.grid_tracker.direct_statement_providers originator payload).filterMap
      (fun p => (session_info.discovery_keys.get? p.1).map (fun ad => (p.1, ad, p.2)))).filter
    (fun t => peer_state.is_authority t.2.1)).head?).map (fun t => (t.1, t.2.2))

/-- Observable outcome of `handle_incoming_statement`: reputation changes,
whether the store insertion was fresh, whether the statement was re-circulated,
whether the candidate's statements went to the backing collaborator, and
whether a fetch-request entry was added. -/
structure IncomingStatementOutput where
  reputation : List (PeerId × Rep)
  imported_fresh : Bool
  circulated : Bool
  sent_to_backing : Bool
  request_added : Bool
deriving DecidableEq

/-- The cluster-else-grid acceptance stage of `handle_incoming_statement`
(`mod.rs` lines 1598–1667), producing either an early-return output or the
checked statement to import. -/
def incoming_check (peer : PeerId) (peer_state : PeerState)
    (per_session : PerSessionState) (local_validator : LocalValidatorState)
    (statement : UncheckedSignedStatement) :
    Except IncomingStatementOutput UncheckedSignedStatement :=
  match local_validator.active,
      cluster_sender_index local_validator.active per_session.session_info peer_state
        statement.validator_index with
  | some a, some csi =>
    match handle_cluster_statement a.cluster_tracker per_session.session_info statement csi with
    | .error rep => .error ⟨[(peer, rep)], false, false, false, false⟩
    | .ok none => .error ⟨[], false, false, false, false⟩
    | .ok (some checked) => .ok checked
  | _, _ =>
    match grid_sender_index local_validator per_session.session_info peer_state
        statement.validator_index statement.payload with
    | some (_gsi, validator_knows_statement) =>
      if validator_knows_statement then
        .error ⟨[(peer, .BENEFIT_VALID_STATEMENT)], false, false, false, false⟩
      else
        match handle_grid_statement per_session.session_info statement with
        | .error rep => .error ⟨[(peer, rep)], false, false, false, false⟩
        | .ok checked => .ok checked
    | none =>
      .error ⟨[(peer, .COST_UNEXPECTED_STATEMENT_INVALID_SENDER)], false, false, false, false⟩

/-- The import stage of `handle_incoming_statement` (`mod.rs` lines 1669–1775):
unconfirmed-candidate bookkeeping, request entry, store insertion, reputation
and forwarding. -/
def incoming_import (s : State) (peer : PeerId) (relay_parent : Hash)
    (per_relay_parent : PerRelayParentState) (originator_group : GroupIndex)
    (checked : UncheckedSignedStatement) : IncomingStatementOutput :=
  let candidate_hash := checked.payload.candidate_hash
  if s.candidates.insert_unconfirmed_ok peer candidate_hash relay_parent originator_group
      none = false then
    ⟨[(peer, .COST_UNEXPECTED_STATEMENT_BAD_ADVERTISE)], false, false, false, false⟩
  else
    let confirmed := s.candidates.get_confirmed candidate_hash
    let is_confirmed := s.candidates.is_confirmed candidate_hash
    let request_added := !is_confirmed
    match per_relay_parent.statement_store.insert_outcome checked.validator_index
        checked.payload .Remote with
    | .ValidatorUnknown => ⟨[], false, false, false, request_added⟩
    | .Fresh =>
      let is_importable := s.candidates.is_importable candidate_hash
      ⟨[(peer, .BENEFIT_VALID_STATEMENT_FIRST)], true, true,
        is_importable && confirmed.isSome, request_added⟩
    | .Known => ⟨[(peer, .BENEFIT_VALID_STATEMENT)], false, false, false, request_added⟩

/-- `handle_incoming_statement` (`mod.rs` lines 1485–1775). -/
def handle_incoming_statement (s : State) (peer : PeerId) (relay_parent : Hash)
    (statement : UncheckedSignedStatement) : IncomingStatementOutput :=
  let nothing : IncomingStatementOutput := ⟨[], false, false, false, false⟩
  match s.peers.lookup peer with
  | none => nothing
  | some peer_state =>
  match s.per_relay_parent.lookup relay_parent with
  | none => { nothing with reputation := [(peer, .COST_UNEXPECTED_STATEMENT_MISSING_KNOWLEDGE)] }
  | some per_relay_parent =>
  match s.per_session.lookup per_relay_parent.session with
  | none => nothing
  | some per_session =>
  if per_relay_parent.is_disabled statement.validator_index then
    { nothing with reputation := [(peer, .COST_DISABLED_VALIDATOR)] }
  else
  match per_relay_parent.local_validator with
  | none =>
    if per_session.is_not_validator then
      { nothing with reputation := [(peer, .COST_UNEXPECTED_STATEMENT_NOT_VALIDATOR)] }
    else nothing
  | some local_validator =>
  match per_session.groups.by_validator_index statement.validator_index with
  | none =>
    { nothing with reputation := [(peer, .COST_UNEXPECTED_STATEMENT_VALIDATOR_NOT_FOUND)] }
  | some originator_group =>
    match incoming_check peer peer_state per_session local_validator statement with
    | .error out => out
    | .ok checked => incoming_import s peer relay_parent per_relay_parent originator_group checked

/-- The two kinds of direct-send targets: cluster (same group) or grid. -/
inductive DirectTargetKind | Cluster | Grid
deriving DecidableEq

/-- Observable outcome of `circulate_statement`: the computed target list
(validator, its discovery key, path kind) and the peers the statement is
actually sent to, tagged with the path that produced them. -/
structure CirculateOutput where
  targets : List (ValidatorIndex × AuthorityDiscoveryId × DirectTargetKind)
  statement_to_peers : List (PeerId × DirectTargetKind)

/-- Cluster- and grid-target lists chained with their path kind
(`mod.rs` lines 1368–1371). -/
def circulate_pairs (cluster_list grid_list : List ValidatorIndex) :
    List (ValidatorIndex × DirectTargetKind) :=
  cluster_list.map (fun v => (v, DirectTargetKind.Cluster)) ++
    grid_list.map (fun v => (v, DirectTargetKind.Grid))

/-- Pair each target with its session discovery key, dropping targets with no
key (`mod.rs` lines 1372–1374). -/
def attach_discovery (dk : List AuthorityDiscoveryId)
    (pairs : List (ValidatorIndex × DirectTargetKind)) :
    List (ValidatorIndex × AuthorityDiscoveryId × DirectTargetKind) :=
  pairs.filterMap (fun vk => (dk.get? vk.1).map (fun a => (vk.1, a, vk.2)))

/-- The send stage of `circulate_statement` (`mod.rs` lines 1380–1422): map each
target through the authority map, keep only connected peers knowing the relay
parent, re-check cluster admissibility for cluster targets, and tag each sent
peer with its path kind. -/
def circulate_send_targets (relay_parent : Hash)
    (authorities : List (AuthorityDiscoveryId × PeerId))
    (peers : List (PeerId × PeerState)) (active : Option ActiveValidatorState)
    (originator : ValidatorIndex) (compact_statement : CompactStatement)
    (targets : List (ValidatorIndex × AuthorityDiscoveryId × DirectTargetKind)) :
    List (PeerId × DirectTargetKind) :=
  targets.filterMap (fun t =>
    match authorities.lookup t.2.1 with
    | some p =>
      if (match peers.lookup p with
          | some pstate => pstate.knows_relay_parent relay_parent
          | none => false) then
        match t.2.2 with
        | .Cluster =>
          match active with
          | some a =>
            if a.cluster_tracker.can_send t.1 originator compact_statement then
              some (p, DirectTargetKind.Cluster)
            else none
          | none => none
        | .Grid => some (p, DirectTargetKind.Grid)
      else none
    | none => none)

/-- `circulate_statement` (`mod.rs` lines 1302–1447): cluster targets (only for
confirmed candidates originated in the local group), grid targets (excluding
cluster members when the cluster is relevant), mapped through discovery keys
and connected peers. -/
def circulate_statement (relay_parent : Hash)
    (relay_parent_state : PerRelayParentState) (per_session : PerSessionState)
    (candidates : Candidates) (authorities : List (AuthorityDiscoveryId × PeerId))
    (peers : List (PeerId × PeerState)) (statement : UncheckedSignedStatement) :
    CirculateOutput :=
  let candidate_hash := statement.payload.candidate_hash
  let compact_statement := statement.payload
  let is_confirmed := candidates.is_confirmed candidate_hash
  let originator := statement.validator_index
  match relay_parent_state.local_validator with
  | none => ⟨[], []⟩
  | some local_validator =>
    let statement_group := per_session.groups.by_validator_index originator
    let cga : Bool × Option (List ValidatorIndex) × List ValidatorIndex :=
      match local_validator.active with
      | some active =>
        let cluster_relevant := some active.group == statement_group
        let cluster_targets :=
          if is_confirmed && cluster_relevant then
            some ((active.cluster_tracker.targets.filter
                (fun v => active.cluster_tracker.can_send v originator compact_statement)).filter
              (fun v => !(v == active.index)))
          else none
        (cluster_relevant, cluster_targets, active.cluster_tracker.targets)
      | none => (false, none, [])
    let cluster_relevant := cga.1
    let cluster_targets := cga.2.1
    let all_cluster_targets := cga.2.2
    let grid_targets :=
      (local_validator.grid_tracker.direct_statement_targets originator compact_statement).filter
        (fun v => !cluster_relevant || !(all_cluster_targets.contains v))
    let targets := attach_discovery per_session.session_info.discovery_keys
      (circulate_pairs (cluster_targets.getD []) grid_targets)
    let statement_to_peers := circulate_send_targets relay_parent authorities peers
      local_validator.active originator compact_statement targets
    ⟨targets, statement_to_peers⟩

/-- A candidate identifier used by the request manager. -/
structure CandidateIdentifier where
  relay_parent : Hash
  candidate_hash : CandidateHash
  group_index : GroupIndex
deriving DecidableEq

/-- Properties of an outgoing attested-candidate request. -/
structure RequestProperties where
  unwanted_mask : StatementFilter
  backing_threshold : Option Nat
deriving DecidableEq

/-- The unwanted mask built by `request_props` (`mod.rs` lines 2892–2903): the
source initializes a blank mask, sets seconded bit `i` inside a loop over the
group for over-seconded members (here the loop is rendered as a map over the
group), and ORs the disabled bitmask into both halves. -/
def request_unwanted_mask (relay_parent_state : PerRelayParentState)
    (group : List ValidatorIndex) (seconding_limit : Nat) : StatementFilter :=
  let unwanted_seconded := group.map (fun v =>
    decide (seconding_limit ≤ relay_parent_state.statement_store.seconded_count v))
  let disabled_mask := relay_parent_state.disabled_bitmask group
  { seconded_in_group := unwanted_seconded.zipWith (· || ·) disabled_mask,
    validated_in_group :=
      (List.replicate group.length false).zipWith (· || ·) disabled_mask }

/-- The `request_props` policy closure of `dispatch_requests`
(`mod.rs` lines 2884–2920): the unwanted mask excludes over-seconded and
disabled statements, and a backing threshold is required for non-local
groups. -/
def request_props (s : State) (identifier : CandidateIdentifier) :
    Option RequestProperties :=
  match s.per_relay_parent.lookup identifier.relay_parent with
  | none => none
  | some relay_parent_state =>
  match s.per_session.lookup relay_parent_state.session with
  | none => none
  | some per_session =>
  match per_session.groups.get identifier.group_index with
  | none => none
  | some group =>
  match relay_parent_state.assignments_per_group.lookup identifier.group_index with
  | none => none
  | some assignments =>
    let seconding_limit := assignments.length
    let unwanted_mask := request_unwanted_mask relay_parent_state group seconding_limit
    match relay_parent_state.local_validator with
    | none => none
    | some local_validator =>
      let require_backing :=
        match local_validator.active with
        | some active => !(active.group == identifier.group_index)
        | none => true
      if require_backing then
        match per_session.groups.get_size_and_backing_threshold identifier.group_index with
        | none => none
        | some st => some ⟨unwanted_mask, some st.2⟩
      else some ⟨unwanted_mask, none⟩

/-- State of the background responder loop `respond_task`
(`mod.rs` lines 3309–3369): the peers of the in-flight responses
(`pending_out`) and the set of peers currently being served (`active_peers`). -/
structure ResponderState where
  pending_out : List PeerId
  active_peers : List PeerId
deriving DecidableEq

/-- Events serialised by the responder's select loop: a decoded incoming request
from a peer, or completion of an in-flight response.  The `pick` and `idx`
arguments resolve the scheduler's choice of which in-flight response finishes. -/
inductive ResponderEvent
| NewRequest (peer : PeerId) (pick : Nat)
| Served (idx : Nat)

/-- One in-flight response completes: remove it from `pending_out` and its peer
from `active_peers`. -/
def complete_one (st : ResponderState) (i : Nat) : ResponderState :=
  match st.pending_out.get? i with
  | none => st
  | some p => ⟨st.pending_out.eraseIdx i, st.active_peers.erase p⟩

/-- One iteration of the `respond_task` loop, parameterised by the global
parallelism cap (`MAX_PARALLEL_ATTESTED_CANDIDATE_REQUESTS`, a constant of the
network-protocol crate outside this snapshot): a request from a peer already
being served is dropped; at the cap, one in-flight response is completed before
the new request is admitted. -/
def respond_step (cap : Nat) (st : ResponderState) (e : ResponderEvent) : ResponderState :=
  match e with
  | .Served i => complete_one st i
  | .NewRequest peer pick =>
    if st.active_peers.contains peer then st
    else
      let st1 := if cap ≤ st.pending_out.length then
          complete_one st (pick % st.pending_out.length)
        else st
      ⟨st1.pending_out ++ [peer], peer :: st1.active_peers⟩

/-- The responder starts with no in-flight responses. -/
def respond_init : ResponderState := ⟨[], []⟩

/-- The responder state after a sequence of loop events. -/
def respond_run (cap : Nat) (events : List ResponderEvent) : ResponderState :=
  events.foldl (respond_step cap) respond_init

/-- The reputation cost `handle_incoming_manifest_common` applies for each
`import_manifest` rejection (`mod.rs` lines 2348–2368). -/
def manifest_rejection_cost : ManifestImportError → Rep
| .Conflicting => .COST_CONFLICTING_MANIFEST
| .Overflow => .COST_EXCESSIVE_SECONDED
| .Insufficient => .COST_INSUFFICIENT_MANIFEST
| .Malformed => .COST_MALFORMED_MANIFEST
| .Disallowed => .COST_UNEXPECTED_MANIFEST_DISALLOWED

/-- Invariant of the responder loop: in-flight responses belong to pairwise
distinct peers, their number never exceeds the cap, and `active_peers` holds
exactly the peers with an in-flight response. -/
def ResponderInv (cap : Nat) (st : ResponderState) : Prop :=
  st.pending_out.Nodup ∧ st.active_peers.Nodup ∧ st.pending_out.length ≤ cap ∧
  (∀ p, p ∈ st.active_peers ↔ p ∈ st.pending_out)

/-- A statement store with trivial oracles (empty store). -/
def trivialStore : StatementStore := ⟨fun _ _ _ => .Fresh, fun _ => 0⟩

/-- A grid tracker with trivial oracles. -/
def trivialGrid : GridTracker :=
  ⟨fun _ _ => [], fun _ _ => [], fun _ _ _ _ _ => .ok false, fun _ _ => none⟩

/-- A cluster tracker with trivial oracles. -/
def trivialCluster : ClusterTracker :=
  ⟨[], fun _ _ _ => false, fun _ _ _ => .error .CandidateUnknown, fun _ => [],
    fun _ _ => false⟩

/-- A candidates store with no entries and permissive advertisement oracle. -/
def trivialCands : Candidates := ⟨[], fun _ _ _ _ _ => true, fun _ => false⟩

/-- The empty orchestrator state. -/
def emptyState : State := ⟨⟨[]⟩, trivialCands, [], [], [], [], [], ⟨[]⟩⟩

/-- Concrete state for the leaf-deactivation evidence: active leaf `10` with
ancestry `{10, 20}`, per-relay-parent state at both, and one pending request
whose relay parent is the ancestor `20`. -/
def c2Prs : PerRelayParentState := ⟨none, trivialStore, 0, [], [], []⟩

def c2Request : RequestEntry := ⟨20, 4, 0, [], false⟩

def c2State : State :=
  { emptyState with
    implicit_view := ⟨[(10, [10, 20])]⟩
    per_relay_parent := [(10, c2Prs), (20, c2Prs)]
    request_manager := ⟨[c2Request]⟩ }

/-- Concrete state for the share counterexample: relay parent `5` is known but
its session `9` has no per-session state, and the local node is not an active
validator there. -/
def c3Prs : PerRelayParentState := ⟨none, trivialStore, 9, [], [], []⟩

def c3State : State := { emptyState with per_relay_parent := [(5, c3Prs)] }

/-- Concrete state for the amended share claim: relay parent `5` known, session
`0` present, local node not an active validator. -/
def c3Ps : PerSessionState := ⟨⟨[], []⟩, ⟨[], 0⟩, [], none, none⟩

def c3PrsW : PerRelayParentState := ⟨none, trivialStore, 0, [], [], []⟩

def c3StateW : State :=
  { emptyState with per_relay_parent := [(5, c3PrsW)], per_session := [(0, c3Ps)] }

/-- Concrete state for the incoming-statement claims: peer `3` connected,
relay parent `1` known with session `0`, validator `2` in group `0`, local
validator present but inactive, no grid providers. -/
def c4Ps : PerSessionState := ⟨⟨[9], [20]⟩, ⟨[[2]], 1⟩, [], none, some (.Active 0)⟩

def c4Lv : LocalValidatorState := ⟨trivialGrid, none⟩

def c4Prs : PerRelayParentState := ⟨some c4Lv, trivialStore, 0, [], [], []⟩

def c4State : State :=
  { emptyState with
    per_relay_parent := [(1, c4Prs)]
    per_session := [(0, c4Ps)]
    peers := [(3, ⟨[], [], none⟩)] }

/-- Concrete state for the manifest claim: peer `3` controls discovery key `30`
(validator `4`), para `8` is assigned to group `2`, and the grid tracker rejects
with `Conflicting`. -/
def c5Grid : GridTracker :=
  { trivialGrid with import_manifest := fun _ _ _ _ _ => .error .Conflicting }

def c5Lv : LocalValidatorState := ⟨c5Grid, none⟩

def c5Prs : PerRelayParentState :=
  ⟨some c5Lv, trivialStore, 0, [(8, [2])], [], [(2, [8])]⟩

def c5Topology : SessionTopologyView := ⟨fun _ _ => [4]⟩

def c5Ps : PerSessionState :=
  ⟨⟨[], [20, 21, 22, 23, 30]⟩, ⟨[], 0⟩, [], some c5Topology, some .Inactive⟩

def c5State : State :=
  { emptyState with
    per_relay_parent := [(1, c5Prs)]
    per_session := [(0, c5Ps)]
    peers := [(3, ⟨[], [], some [30]⟩)] }

def c5Summary : ManifestSummary := ⟨77, 2, .blank 1⟩

/-- Concrete context for the circulation claim: local validator inactive, grid
targets `4` and `5` with discovery keys `24` and `25`. -/
def c6Grid : GridTracker :=
  { trivialGrid with direct_statement_targets := fun _ _ => [4, 5] }

def c6Lv : LocalValidatorState := ⟨c6Grid, none⟩

def c6Prs : PerRelayParentState := ⟨some c6Lv, trivialStore, 0, [], [], []⟩

def c6Ps : PerSessionState :=
  ⟨⟨[], [20, 21, 22, 23, 24, 25]⟩, ⟨[[2]], 1⟩, [], none, none⟩

def c6Stmt : UncheckedSignedStatement := ⟨2, .Seconded 9, true⟩

/-- Concrete circulation context in which one peer controls the discovery keys
of both a cluster target and a grid target: group `0` is `[0, 1]` with local
validator `0`; validator `1` (discovery key `21`) is the cluster target,
validator `2` (discovery key `22`) the grid target, and peer `7` bears both
authority ids — as the peer-connection handling allows, mapping every declared
authority id of a connecting peer to that one peer. Candidate `9` is
confirmed. -/
def c6xActive : ActiveValidatorState :=
  ⟨0, 0, [], ⟨[1], fun _ _ _ => true, fun _ _ _ => .error .CandidateUnknown,
    fun _ => [], fun _ _ => false⟩⟩

def c6xGrid : GridTracker :=
  { trivialGrid with direct_statement_targets := fun _ _ => [2] }

def c6xLv : LocalValidatorState := ⟨c6xGrid, some c6xActive⟩

def c6xPrs : PerRelayParentState := ⟨some c6xLv, trivialStore, 0, [], [], []⟩

def c6xPs : PerSessionState := ⟨⟨[], [20, 21, 22]⟩, ⟨[[0, 1]], 1⟩, [], none, none⟩

def c6xCands : Candidates :=
  ⟨[(9, .Confirmed ⟨1, 0, 0, 8⟩)], fun _ _ _ _ _ => true, fun _ => false⟩

def c6xAuth : List (AuthorityDiscoveryId × PeerId) := [(21, 7), (22, 7)]

def c6xPeers : List (PeerId × PeerState) := [(7, ⟨[1], [], some [21, 22]⟩)]

def c6xStmt : UncheckedSignedStatement := ⟨1, .Valid 9, true⟩

/-- Concrete state for the request-props claim: group `0` is `[4, 5, 6]` with two
assigned paras (seconding limit `2`); validator `4` has seconded `3` times,
validator `5` is disabled; the local validator's own group is `1`. -/
def c7Active : ActiveValidatorState := ⟨0, 1, [], trivialCluster⟩

def c7Lv : LocalValidatorState := ⟨trivialGrid, some c7Active⟩

def c7Store : StatementStore := ⟨fun _ _ _ => .Fresh, fun v => if v == 4 then 3 else 0⟩

def c7Prs : PerRelayParentState := ⟨some c7Lv, c7Store, 0, [], [5], [(0, [8, 9])]⟩

def c7Ps : PerSessionState := ⟨⟨[], []⟩, ⟨[[4, 5, 6]], 2⟩, [], none, none⟩

def c7State : State :=
  { emptyState with per_relay_parent := [(1, c7Prs)], per_session := [(0, c7Ps)] }

def c7Id : CandidateIdentifier := ⟨1, 9, 0⟩

/-- Concrete state for the disabled-validator claim: originator `2` disabled at
relay parent `1`. -/
def c10Ps : PerSessionState := ⟨⟨[], []⟩, ⟨[], 0⟩, [], none, none⟩

def c10Prs : PerRelayParentState := ⟨none, trivialStore, 0, [], [2], []⟩

def c10State : State :=
  { emptyState with
    per_relay_parent := [(1, c10Prs)]
    per_session := [(0, c10Ps)]
    peers := [(3, ⟨[], [], none⟩)] }

/-! ### List helper lemmas -/

theorem lookup_filter_of_none {β : Type} (p : Nat × β → Bool) :
    ∀ (l : List (Nat × β)) (k : Nat), l.lookup k = none → (l.filter p).lookup k = none := by
  intro l k
  induction l with
  | nil => intro _; rfl
  | cons hd tl ih =>
    intro h
    obtain ⟨a, b⟩ := hd
    rw [List.lookup_cons] at h
    cases hk : (k == a) with
    | true => rw [hk] at h; exact Option.noConfusion h
    | false =>
      rw [hk] at h
      rw [List.filter_cons]
      by_cases hp : p (a, b) = true
      · rw [if_pos hp, List.lookup_cons, hk]; exact ih h
      · rw [if_neg hp]; exact ih h

theorem lookup_filter_ne_self {β : Type} :
    ∀ (l : List (Nat × β)) (k : Nat),
      (l.filter (fun e => !(e.1 == k))).lookup k = none := by
  intro l k
  induction l with
  | nil => rfl
  | cons hd tl ih =>
    obtain ⟨a, b⟩ := hd
    rw [List.filter_cons]
    by_cases ha : a = k
    · have h0 : (!((a, b).1 == k)) = false := by simp [ha]
      rw [h0, if_neg Bool.false_ne_true]
      exact ih
    · have h1 : (!((a, b).1 == k)) = true := by simp [ha]
      rw [if_pos h1, List.lookup_cons]
      have hk : (k == a) = false := by simp [Ne.symm ha]
      rw [hk]
      exact ih

theorem filter_idem {α : Type} (p : α → Bool) :
    ∀ l : List α, (l.filter p).filter p = l.filter p := by
  intro l
  induction l with
  | nil => rfl
  | cons hd tl ih =>
    rw [List.filter_cons]
    by_cases hp : p hd = true
    · rw [if_pos hp, List.filter_cons, if_pos hp, ih]
    · rw [if_neg hp]; exact ih

theorem filter_eq_self_of_all {α : Type} (p : α → Bool) (l : List α)
    (h : ∀ a ∈ l, p a = true) : l.filter p = l := by
  induction l with
  | nil => rfl
  | cons hd tl ih =>
    rw [List.filter_cons, if_pos (h hd (List.mem_cons_self _ _))]
    rw [ih (fun a ha => h a (List.mem_cons_of_mem hd ha))]

theorem list_max_eq_none : ∀ l : List Nat, list_max l = none → l = [] := by
  intro l h
  cases l with
  | nil => rfl
  | cons hd tl =>
    rw [list_max] at h
    cases ht : list_max tl with
    | none => rw [ht] at h; exact Option.noConfusion h
    | some k => rw [ht] at h; exact Option.noConfusion h

theorem list_max_mem : ∀ (l : List Nat) (m : Nat), list_max l = some m → m ∈ l := by
  intro l
  induction l with
  | nil => intro m h; exact Option.noConfusion h
  | cons hd tl ih =>
    intro m h
    rw [list_max] at h
    cases ht : list_max tl with
    | none =>
      rw [ht] at h
      exact (Option.some.inj h) ▸ List.mem_cons_self hd tl
    | some k =>
      rw [ht] at h
      have hm : max hd k = m := Option.some.inj h
      rcases max_choice hd k with h1 | h1
      · have hdm : hd = m := by rw [← hm, h1]
        exact List.mem_cons.mpr (Or.inl hdm.symm)
      · have hkm : k = m := by rw [← hm, h1]
        exact List.mem_cons_of_mem hd (hkm ▸ ih k ht)

theorem list_max_le : ∀ (l : List Nat) (m : Nat), list_max l = some m →
    ∀ x ∈ l, x ≤ m := by
  intro l
  induction l with
  | nil => intro m _ x hx; cases hx
  | cons hd tl ih =>
    intro m h x hx
    rw [list_max] at h
    cases ht : list_max tl with
    | none =>
      rw [ht] at h
      have he : tl = [] := list_max_eq_none tl ht
      have hm : hd = m := Option.some.inj h
      subst he
      rcases List.mem_cons.mp hx with h1 | h1
      · rw [h1, ← hm]
      · cases h1
    | some k =>
      rw [ht] at h
      have hm : max hd k = m := Option.some.inj h
      rcases List.mem_cons.mp hx with h1 | h1
      · subst h1; exact hm ▸ le_max_left _ _
      · exact le_trans (ih k ht x h1) (hm ▸ le_max_right _ _)

theorem list_max_eq_of : ∀ (l : List Nat) (m : Nat), m ∈ l → (∀ x ∈ l, x ≤ m) →
    list_max l = some m := by
  intro l
  induction l with
  | nil => intro m h; cases h
  | cons hd tl ih =>
    intro m hmem hle
    rw [list_max]
    cases ht : list_max tl with
    | none =>
      have he : tl = [] := list_max_eq_none tl ht
      subst he
      rcases List.mem_cons.mp hmem with h1 | h1
      · show some hd = some m
        rw [h1]
      · cases h1
    | some k =>
      have hk_mem : k ∈ tl := list_max_mem tl k ht
      have hk_le : k ≤ m := hle k (List.mem_cons_of_mem hd hk_mem)
      have hhd_le : hd ≤ m := hle hd (List.mem_cons_self _ _)
      show some (max hd k) = some m
      rcases List.mem_cons.mp hmem with h1 | h1
      · subst h1
        rw [max_eq_left hk_le]
      · have hm_le_k : m ≤ k := list_max_le tl k ht m h1
        have hkm : k = m := le_antisymm hk_le hm_le_k
        rw [hkm, max_eq_right hhd_le]

/-! ### Leaf-deactivation lemmas -/

theorem deactivate_leaf_lookup_self (v : ImplicitView) (leaf : Hash) :
    ((v.deactivate_leaf leaf).2.leaves.lookup leaf) = none := by
  simp only [ImplicitView.deactivate_leaf]
  cases h : v.leaves.lookup leaf with
  | none => exact h
  | some rps => exact lookup_filter_ne_self v.leaves leaf

theorem deactivate_leaf_lookup_none (v : ImplicitView) (leaf x : Hash)
    (h : v.leaves.lookup x = none) :
    ((v.deactivate_leaf leaf).2.leaves.lookup x) = none := by
  simp only [ImplicitView.deactivate_leaf]
  cases hl : v.leaves.lookup leaf with
  | none => exact h
  | some rps => exact lookup_filter_of_none _ v.leaves x h

theorem deactivate_leaf_step_implicit_self (s : State) (leaf : Hash) :
    ((deactivate_leaf_step s leaf).implicit_view.leaves.lookup leaf) = none :=
  deactivate_leaf_lookup_self s.implicit_view leaf

theorem deactivate_leaf_step_implicit_none (s : State) (leaf x : Hash)
    (h : s.implicit_view.leaves.lookup x = none) :
    ((deactivate_leaf_step s leaf).implicit_view.leaves.lookup x) = none :=
  deactivate_leaf_lookup_none s.implicit_view leaf x h

theorem foldl_step_lookup_none (leaves : List Hash) :
    ∀ (s : State) (x : Hash), s.implicit_view.leaves.lookup x = none →
      ((leaves.foldl deactivate_leaf_step s).implicit_view.leaves.lookup x) = none := by
  induction leaves with
  | nil => intro s x h; exact h
  | cons hd tl ih =>
    intro s x h
    exact ih _ x (deactivate_leaf_step_implicit_none s hd x h)

theorem foldl_step_none_of_mem (leaves : List Hash) :
    ∀ (s : State) (x : Hash), x ∈ leaves →
      ((leaves.foldl deactivate_leaf_step s).implicit_view.leaves.lookup x) = none := by
  induction leaves with
  | nil => intro s x h; cases h
  | cons hd tl ih =>
    intro s x h
    rcases List.mem_cons.mp h with h1 | h1
    · subst h1
      exact foldl_step_lookup_none tl _ x (deactivate_leaf_step_implicit_self s x)
    · exact ih _ x h1

theorem deactivate_leaf_step_id (s : State) (leaf : Hash)
    (h : s.implicit_view.leaves.lookup leaf = none) :
    deactivate_leaf_step s leaf = s := by
  simp only [deactivate_leaf_step, ImplicitView.deactivate_leaf, h, List.foldl_nil]

theorem foldl_step_id (leaves : List Hash) :
    ∀ s : State, (∀ x ∈ leaves, s.implicit_view.leaves.lookup x = none) →
      leaves.foldl deactivate_leaf_step s = s := by
  induction leaves with
  | nil => intro s _; rfl
  | cons hd tl ih =>
    intro s h
    rw [List.foldl_cons, deactivate_leaf_step_id s hd (h hd (List.mem_cons_self _ _))]
    exact ih s (fun x hx => h x (List.mem_cons_of_mem hd hx))

theorem on_deactivate_idem (c : Candidates) (live : Hash → Bool) :
    (c.on_deactivate_leaves live).on_deactivate_leaves live =
      c.on_deactivate_leaves live := by
  simp only [Candidates.on_deactivate_leaves]
  rw [filter_idem]

theorem deactivate_cleanup_per_relay_parent (s : State) :
    (deactivate_cleanup s).per_relay_parent = s.per_relay_parent := rfl

theorem deactivate_cleanup_implicit_view (s : State) :
    (deactivate_cleanup s).implicit_view = s.implicit_view := rfl

theorem list_max_filter_still {α : Type} (ut : List (Nat × α)) (pred : Nat × α → Bool)
    (e : Nat × α) (he : e ∈ ut.filter pred)
    (heq : list_max (ut.map Prod.fst) = some e.1) :
    list_max ((ut.filter pred).map Prod.fst) = some e.1 := by
  apply list_max_eq_of
  · exact List.mem_map.mpr ⟨e, he, rfl⟩
  · intro y hy
    obtain ⟨f, hf, rfl⟩ := List.mem_map.mp hy
    exact list_max_le _ _ heq _ (List.mem_map.mpr ⟨f, List.mem_of_mem_filter hf, rfl⟩)

theorem deactivate_cleanup_idem (s : State) :
    deactivate_cleanup (deactivate_cleanup s) = deactivate_cleanup s := by
  obtain ⟨iv, cands, prp, psess, ut, prs, auth, rm⟩ := s
  simp only [deactivate_cleanup, live_relay_parent, referenced_sessions]
  congr 1
  · exact on_deactivate_idem _ _
  · exact filter_idem _ _
  · apply filter_eq_self_of_all
    intro e he
    have h1 := List.of_mem_filter he
    rcases (Bool.or_eq_true _ _).mp h1 with h2 | h2
    · rw [h2, Bool.true_or]
    · have heq := beq_iff_eq.mp h2
      rw [list_max_filter_still ut _ e he heq]
      simp

/-- C9: `handle_deactivate_leaves` is idempotent — for every state and every
list of leaves, applying it a second time with the same leaves leaves the state
exactly as it was after the first application. -/
theorem C9_handle_deactivate_leaves_idempotent (s : State) (leaves : List Hash) :
    handle_deactivate_leaves (handle_deactivate_leaves s leaves) leaves =
      handle_deactivate_leaves s leaves := by
  unfold handle_deactivate_leaves
  rw [foldl_step_id leaves (deactivate_cleanup (leaves.foldl deactivate_leaf_step s))
    (fun x hx => foldl_step_none_of_mem leaves s x hx)]
  exact deactivate_cleanup_idem _

/-- C1 counterexample: in a state with no confirmed candidate for the
acknowledged hash, `handle_incoming_acknowledgement` does apply a reputation
change to the sending peer (the claim asserts it applies none). -/
theorem C1_counterexample :
    emptyState.candidates.get_confirmed 5 = none ∧
    ¬ ((handle_incoming_acknowledgement emptyState 7
        ⟨5, StatementFilter.blank 0⟩).reputation = []) := by
  constructor
  · rfl
  · intro h
    exact List.noConfusion h

/-- C1 (amended): an acknowledgement whose candidate hash is not a confirmed
candidate is dropped, and the sending peer is penalized with exactly
`COST_UNEXPECTED_ACKNOWLEDGEMENT_UNKNOWN_CANDIDATE`. -/
theorem C1_unknown_candidate_ack_penalized (s : State) (peer : PeerId)
    (acknowledgement : BackedCandidateAcknowledgement)
    (h : s.candidates.get_confirmed acknowledgement.candidate_hash = none) :
    handle_incoming_acknowledgement s peer acknowledgement =
      ⟨[(peer, .COST_UNEXPECTED_ACKNOWLEDGEMENT_UNKNOWN_CANDIDATE)], none⟩ := by
  simp only [handle_incoming_acknowledgement, h]

theorem C1_unknown_candidate_ack_penalized_witness :
    handle_incoming_acknowledgement emptyState 7 ⟨5, StatementFilter.blank 0⟩ =
      ⟨[(7, .COST_UNEXPECTED_ACKNOWLEDGEMENT_UNKNOWN_CANDIDATE)], none⟩ :=
  C1_unknown_candidate_ack_penalized emptyState 7 ⟨5, StatementFilter.blank 0⟩ rfl

/-- C10: an incoming statement whose claimed originator validator index is in
the relay parent's disabled set is answered with exactly
`COST_DISABLED_VALIDATOR` and dropped with no signature check, store insertion,
candidate bookkeeping, request entry, or circulation. -/
theorem C10_disabled_validator_early_cost (s : State) (peer : PeerId)
    (relay_parent : Hash) (statement : UncheckedSignedStatement)
    (pst : PeerState) (prs : PerRelayParentState) (ps : PerSessionState)
    (hpeer : s.peers.lookup peer = some pst)
    (hrp : s.per_relay_parent.lookup relay_parent = some prs)
    (hsess : s.per_session.lookup prs.session = some ps)
    (hdis : prs.is_disabled statement.validator_index = true) :
    handle_incoming_statement s peer relay_parent statement =
      ⟨[(peer, .COST_DISABLED_VALIDATOR)], false, false, false, false⟩ := by
  simp only [handle_incoming_statement, hpeer, hrp, hsess, hdis, if_true]

theorem C10_disabled_validator_early_cost_witness :
    handle_incoming_statement c10State 3 1 ⟨2, .Seconded 9, true⟩ =
      ⟨[(3, .COST_DISABLED_VALIDATOR)], false, false, false, false⟩ :=
  C10_disabled_validator_early_cost c10State 3 1 ⟨2, .Seconded 9, true⟩ _ _ _
    rfl rfl rfl rfl

/-- C2: evidence that `handle_deactivate_leaves` removes the per-relay-parent
state of every pruned relay parent and garbage-collects unreferenced sessions,
but removes pending requests keyed by the deactivated *leaf* only: deactivating
leaf `10` prunes relay parents `10` and `20`, yet the pending request whose
relay parent is `20` survives in the request manager. -/
theorem C2_pruned_relay_parent_request_survives :
    (c2State.implicit_view.deactivate_leaf 10).1 = [10, 20] ∧
    (handle_deactivate_leaves c2State [10]).per_relay_parent = [] ∧
    (handle_deactivate_leaves c2State [10]).per_session = [] ∧
    ((handle_deactivate_leaves c2State [10]).request_manager.requests.map
      (fun r => r.relay_parent)) = [20] := by
  refine ⟨rfl, rfl, rfl, rfl⟩

/-- C5: with the manifest sanity checks passing, `handle_incoming_manifest_common`
maps each `import_manifest` rejection to exactly its matching reputation cost
(`Conflicting` to `COST_CONFLICTING_MANIFEST`, `Overflow` to
`COST_EXCESSIVE_SECONDED`, `Insufficient` to `COST_INSUFFICIENT_MANIFEST`,
`Malformed` to `COST_MALFORMED_MANIFEST`, `Disallowed` to
`COST_UNEXPECTED_MANIFEST_DISALLOWED`) and drops the message returning `none`;
on success with a consistent advertisement it returns whether the local node
should immediately acknowledge. -/
theorem C5_manifest_import_outcome (s : State) (peer : PeerId)
    (candidate_hash : CandidateHash) (relay_parent : Hash) (para_id : ParaId)
    (ms : ManifestSummary) (mk : ManifestKind)
    (pst : PeerState) (prs : PerRelayParentState) (ps : PerSessionState)
    (lv : LocalValidatorState) (egroups : List GroupIndex) (gt : SessionTopologyView)
    (si : ValidatorIndex) (assignments : List ParaId)
    (hpeer : s.peers.lookup peer = some pst)
    (hrp : s.per_relay_parent.lookup relay_parent = some prs)
    (hsess : s.per_session.lookup prs.session = some ps)
    (hlv : prs.local_validator = some lv)
    (hgp : prs.groups_per_para.lookup para_id = some egroups)
    (hgin : egroups.any (fun g => g == ms.claimed_group_index) = true)
    (hview : ps.grid_view = some gt)
    (hsender : manifest_sender_index pst ps gt ms.claimed_group_index mk = some si)
    (hassign : prs.assignments_per_group.lookup ms.claimed_group_index =
      some assignments) :
    (∀ e : ManifestImportError,
      lv.grid_tracker.import_manifest candidate_hash
          (manifest_seconding_limit assignments para_id)
          (masked_manifest_summary prs ps ms) mk si = .error e →
      handle_incoming_manifest_common s peer candidate_hash relay_parent para_id ms mk =
        ⟨[(peer, manifest_rejection_cost e)], none⟩) ∧
    (∀ acknowledge : Bool,
      lv.grid_tracker.import_manifest candidate_hash
          (manifest_seconding_limit assignments para_id)
          (masked_manifest_summary prs ps ms) mk si = .ok acknowledge →
      s.candidates.insert_unconfirmed_ok peer candidate_hash relay_parent
        ms.claimed_group_index (some (ms.claimed_parent_hash, para_id)) = true →
      handle_incoming_manifest_common s peer candidate_hash relay_parent para_id ms mk =
        ⟨[], some ⟨acknowledge, si⟩⟩) := by
  constructor
  · intro e he
    cases e <;>
      simp [handle_incoming_manifest_common, hpeer, hrp, hsess, hlv, hgp, hgin,
        hview, hsender, hassign, he, manifest_rejection_cost]
  · intro acknowledge hok hins
    simp [handle_incoming_manifest_common, hpeer, hrp, hsess, hlv, hgp, hgin,
      hview, hsender, hassign, hok, hins]

theorem C5_manifest_import_outcome_witness :
    handle_incoming_manifest_common c5State 3 9 1 8 c5Summary .Full =
      ⟨[(3, .COST_CONFLICTING_MANIFEST)], none⟩ :=
  (C5_manifest_import_outcome c5State 3 9 1 8 c5Summary .Full _ _ _ _ _ _ _ _
    rfl rfl rfl rfl rfl rfl rfl rfl rfl).1 .Conflicting rfl

/-- C3 counterexample: the relay parent is known but its session state is
missing; the local node is not an active validator there — a listed
precondition fails — yet `share_local_statement` returns `Ok`, not
`InvalidShare`. -/
theorem C3_counterexample :
    (c3State.per_relay_parent.lookup 5).isSome = true ∧
    ((c3State.per_relay_parent.lookup 5).bind
      PerRelayParentState.active_validator_state) = none ∧
    (share_local_statement c3State 5 ⟨.Valid 1, 0⟩).result = .ok () := by
  refine ⟨rfl, rfl, rfl⟩

/-- C3 (amended): `share_local_statement` returns `InvalidShare` — confirming,
importing and circulating nothing — whenever the relay parent is unknown, or,
provided the relay parent's session state is present (with the session state
missing the call instead returns `Ok` and does nothing), the local node is not
an active validator, the statement's validator index differs from the local
one, a `Seconded` statement is at or beyond the seconding limit, or the
expected para or relay parent does not match the local assignment. -/
theorem C3_share_invalid_preconditions (s : State) (relay_parent : Hash)
    (statement : SignedFullStatement) :
    (s.per_relay_parent.lookup relay_parent = none →
      share_local_statement s relay_parent statement =
        ⟨.error .InvalidShare, false, false, false⟩) ∧
    (∀ prs ps, s.per_relay_parent.lookup relay_parent = some prs →
      s.per_session.lookup prs.session = some ps →
      (prs.active_validator_state = none ∨
        (∃ a, prs.active_validator_state = some a ∧
          a.index ≠ statement.validator_index) ∨
        (∃ a, prs.active_validator_state = some a ∧ statement.is_seconded = true ∧
          a.assignments.length ≤ prs.statement_store.seconded_count a.index) ∨
        (∃ a pa erp, prs.active_validator_state = some a ∧
          share_expected s.candidates statement = some (pa, erp) ∧
          (a.assignments.contains pa = false ∨ relay_parent ≠ erp))) →
      share_local_statement s relay_parent statement =
        ⟨.error .InvalidShare, false, false, false⟩) := by
  constructor
  · intro h
    simp only [share_local_statement, h]
  · intro prs ps hrp hsess hfail
    rcases hfail with h | ⟨a, ha, hidx⟩ | ⟨a, ha, hsec, hlim⟩ | ⟨a, pa, erp, ha, hexp, hbad⟩
    · simp only [share_local_statement, hrp, hsess, h]
    · simp only [share_local_statement, hrp, hsess, ha]
      cases hexp : share_expected s.candidates statement with
      | none => rfl
      | some pe =>
        obtain ⟨pa, erp⟩ := pe
        simp only []
        rw [if_pos hidx]
    · obtain ⟨pay, vi⟩ := statement
      cases pay with
      | Valid h0 => simp [SignedFullStatement.is_seconded] at hsec
      | Seconded c pvd =>
        simp only [share_local_statement, hrp, hsess, ha, share_expected]
        split
        · rfl
        · split
          · rfl
          · rename_i h1 h2
            exact absurd (by
              simp only [SignedFullStatement.is_seconded, Bool.true_and]
              exact decide_eq_true hlim) h2
    · simp only [share_local_statement, hrp, hsess, ha, hexp]
      split
      · rfl
      · rename_i h1
        split
        · rfl
        · rename_i h2
          split
          · rfl
          · rename_i h3
            exfalso
            rcases hbad with hb | hb
            · exact h3 (by
                simp only [Bool.or_eq_true, Bool.not_eq_true']
                exact Or.inl hb)
            · exact h3 (by
                have hd : decide (relay_parent ≠ erp) = true := decide_eq_true hb
                simp only [Bool.or_eq_true, hd]
                exact Or.inr trivial)

theorem C3_share_invalid_preconditions_witness :
    share_local_statement c3StateW 5 ⟨.Valid 1, 0⟩ =
      ⟨.error .InvalidShare, false, false, false⟩ :=
  (C3_share_invalid_preconditions c3StateW 5 ⟨.Valid 1, 0⟩).2 c3PrsW c3Ps rfl rfl
    (Or.inl rfl)

theorem get?_some_lt {α : Type} : ∀ (l : List α) (i : Nat) (v : α),
    l.get? i = some v → i < l.length := by
  intro l
  induction l with
  | nil => intro i v h; cases i <;> exact Option.noConfusion h
  | cons hd tl ih =>
    intro i v h
    cases i with
    | zero => exact Nat.succ_le_succ (Nat.zero_le _)
    | succ n => exact Nat.succ_lt_succ (ih n v h)

theorem get?_map_eq {α β : Type} (f : α → β) : ∀ (l : List α) (i : Nat),
    (l.map f).get? i = (l.get? i).map f := by
  intro l
  induction l with
  | nil => intro i; cases i <;> rfl
  | cons hd tl ih =>
    intro i
    cases i with
    | zero => rfl
    | succ n => exact ih n

theorem get?_zipWith_eq {α β γ : Type} (f : α → β → γ) :
    ∀ (l1 : List α) (l2 : List β) (i : Nat) (x : α) (y : β),
      l1.get? i = some x → l2.get? i = some y →
      (List.zipWith f l1 l2).get? i = some (f x y) := by
  intro l1
  induction l1 with
  | nil => intro l2 i x y h1 _; exact absurd h1 (by cases i <;> simp)
  | cons a t ih =>
    intro l2 i x y h1 h2
    cases l2 with
    | nil => exact absurd h2 (by cases i <;> simp)
    | cons b u =>
      cases i with
      | zero =>
        rw [List.zipWith_cons_cons]
        show some (f a b) = some (f x y)
        rw [Option.some.inj h1, Option.some.inj h2]
      | succ n =>
        rw [List.zipWith_cons_cons]
        exact ih u n x y h1 h2

theorem get?_replicate_lt {α : Type} (a : α) : ∀ (n i : Nat), i < n →
    (List.replicate n a).get? i = some a := by
  intro n
  induction n with
  | zero => intro i h; cases h
  | succ m ih =>
    intro i h
    cases i with
    | zero => rfl
    | succ k => exact ih k (Nat.lt_of_succ_lt_succ h)

/-- C7: for a candidate identifier whose relay parent, session, group and group
assignment are known and whose relay parent has local validator state,
`request_props` returns a request-properties value whose seconded bit at each
group position is set exactly when that validator's seconded count is at or
above the group's seconding limit (the number of paras assigned to the group)
or the validator is disabled, whose validated bit is set exactly for disabled
validators, and which requires a backing threshold if and only if the group is
not the local active validator's own group. -/
theorem C7_request_props_mask (s : State) (identifier : CandidateIdentifier)
    (prs : PerRelayParentState) (ps : PerSessionState) (group : List ValidatorIndex)
    (assignments : List ParaId) (lv : LocalValidatorState)
    (hrp : s.per_relay_parent.lookup identifier.relay_parent = some prs)
    (hsess : s.per_session.lookup prs.session = some ps)
    (hgroup : ps.groups.get identifier.group_index = some group)
    (hassign : prs.assignments_per_group.lookup identifier.group_index =
      some assignments)
    (hlv : prs.local_validator = some lv) :
    ∃ props, request_props s identifier = some props ∧
      (∀ i v, group.get? i = some v →
        props.unwanted_mask.seconded_in_group.get? i =
          some ((decide (assignments.length ≤
            prs.statement_store.seconded_count v)) || prs.is_disabled v) ∧
        props.unwanted_mask.validated_in_group.get? i =
          some (prs.is_disabled v)) ∧
      (∀ active, lv.active = some active →
        props.backing_threshold.isSome = !(active.group == identifier.group_index)) := by
  have hmask : ∀ i v, group.get? i = some v →
      (request_unwanted_mask prs group assignments.length).seconded_in_group.get? i =
        some ((decide (assignments.length ≤
          prs.statement_store.seconded_count v)) || prs.is_disabled v) ∧
      (request_unwanted_mask prs group assignments.length).validated_in_group.get? i =
        some (prs.is_disabled v) := by
    intro i v hgv
    have h2 : (prs.disabled_bitmask group).get? i = some (prs.is_disabled v) := by
      unfold PerRelayParentState.disabled_bitmask
      rw [get?_map_eq, hgv]
      rfl
    constructor
    · have h1 : (group.map (fun w => decide (assignments.length ≤
          prs.statement_store.seconded_count w))).get? i =
          some (decide (assignments.length ≤ prs.statement_store.seconded_count v)) := by
        rw [get?_map_eq, hgv]
        rfl
      exact get?_zipWith_eq _ _ _ _ _ _ h1 h2
    · have h0 : (List.replicate group.length false).get? i = some false :=
        get?_replicate_lt false _ i (get?_some_lt group i v hgv)
      have hz := get?_zipWith_eq (· || ·) _ _ i false (prs.is_disabled v) h0 h2
      show (List.zipWith (· || ·) (List.replicate group.length false)
        (prs.disabled_bitmask group)).get? i = some (prs.is_disabled v)
      rw [hz]
      simp
  have hsz : ps.groups.get_size_and_backing_threshold identifier.group_index =
      some (group.length, min ps.groups.backing_threshold group.length) := by
    simp [Groups.get_size_and_backing_threshold, hgroup]
  cases hact : lv.active with
  | some active =>
    by_cases hreq : (!(active.group == identifier.group_index)) = true
    · have hp : request_props s identifier =
          some ⟨request_unwanted_mask prs group assignments.length,
            some (min ps.groups.backing_threshold group.length)⟩ := by
        simp only [request_props, hrp, hsess, hgroup, hassign, hlv, hact, hreq,
          if_true, hsz]
      refine ⟨_, hp, hmask, ?_⟩
      intro active2 hact2
      rw [← Option.some.inj hact2, hreq]
      rfl
    · have hreqf : (!(active.group == identifier.group_index)) = false :=
        Bool.eq_false_iff.mpr (fun hc => hreq hc)
      have hp : request_props s identifier =
          some ⟨request_unwanted_mask prs group assignments.length, none⟩ := by
        simp only [request_props, hrp, hsess, hgroup, hassign, hlv, hact, hreqf,
          Bool.false_eq_true, if_false]
      refine ⟨_, hp, hmask, ?_⟩
      intro active2 hact2
      rw [← Option.some.inj hact2, hreqf]
      rfl
  | none =>
    have hp : request_props s identifier =
        some ⟨request_unwanted_mask prs group assignments.length,
          some (min ps.groups.backing_threshold group.length)⟩ := by
      simp only [request_props, hrp, hsess, hgroup, hassign, hlv, hact, if_true, hsz]
    refine ⟨_, hp, hmask, ?_⟩
    intro active2 hact2
    exact Option.noConfusion hact2

theorem C7_request_props_mask_witness :
    (request_props c7State c7Id).isSome = true := by
  obtain ⟨props, hp, -, -⟩ :=
    C7_request_props_mask c7State c7Id _ _ _ _ _ rfl rfl rfl rfl rfl
  rw [hp]
  rfl

/-- C4: with the entry guards passing (peer connected, relay parent and session
known, originator not disabled, local validator present, originator's group
known), `handle_incoming_statement` (a) answers a sender that is neither an
allowed cluster sender nor an eligible grid sender with exactly
`COST_UNEXPECTED_STATEMENT_INVALID_SENDER` and imports nothing; (b) on an
accepted statement whose store insertion is fresh credits the peer with
`BENEFIT_VALID_STATEMENT_FIRST`, re-circulates the statement, and forwards the
candidate's statements to backing exactly when the candidate is importable and
confirmed; (c) on an accepted statement already known to the store credits the
peer with `BENEFIT_VALID_STATEMENT` and does not re-circulate. -/
theorem C4_handle_incoming_statement_cases (s : State) (peer : PeerId)
    (relay_parent : Hash) (statement : UncheckedSignedStatement)
    (pst : PeerState) (prs : PerRelayParentState) (ps : PerSessionState)
    (lv : LocalValidatorState) (originator_group : GroupIndex)
    (hpeer : s.peers.lookup peer = some pst)
    (hrp : s.per_relay_parent.lookup relay_parent = some prs)
    (hsess : s.per_session.lookup prs.session = some ps)
    (hdis : prs.is_disabled statement.validator_index = false)
    (hlv : prs.local_validator = some lv)
    (hgrp : ps.groups.by_validator_index statement.validator_index =
      some originator_group) :
    ((lv.active.isSome = false ∨
        cluster_sender_index lv.active ps.session_info pst
          statement.validator_index = none) →
      grid_sender_index lv ps.session_info pst statement.validator_index
        statement.payload = none →
      handle_incoming_statement s peer relay_parent statement =
        ⟨[(peer, .COST_UNEXPECTED_STATEMENT_INVALID_SENDER)],
          false, false, false, false⟩) ∧
    (∀ checked, incoming_check peer pst ps lv statement = .ok checked →
      s.candidates.insert_unconfirmed_ok peer checked.payload.candidate_hash
        relay_parent originator_group none = true →
      prs.statement_store.insert_outcome checked.validator_index checked.payload
        .Remote = .Fresh →
      handle_incoming_statement s peer relay_parent statement =
        ⟨[(peer, .BENEFIT_VALID_STATEMENT_FIRST)], true, true,
          s.candidates.is_importable checked.payload.candidate_hash &&
            (s.candidates.get_confirmed checked.payload.candidate_hash).isSome,
          !(s.candidates.is_confirmed checked.payload.candidate_hash)⟩) ∧
    (∀ checked, incoming_check peer pst ps lv statement = .ok checked →
      s.candidates.insert_unconfirmed_ok peer checked.payload.candidate_hash
        relay_parent originator_group none = true →
      prs.statement_store.insert_outcome checked.validator_index checked.payload
        .Remote = .Known →
      handle_incoming_statement s peer relay_parent statement =
        ⟨[(peer, .BENEFIT_VALID_STATEMENT)], false, false, false,
          !(s.candidates.is_confirmed checked.payload.candidate_hash)⟩) := by
  have hunfold : handle_incoming_statement s peer relay_parent statement =
      (match incoming_check peer pst ps lv statement with
       | .error out => out
       | .ok checked =>
          incoming_import s peer relay_parent prs originator_group checked) := by
    simp only [handle_incoming_statement, hpeer, hrp, hsess, hlv, hgrp, hdis,
      Bool.false_eq_true, if_false]
  refine ⟨?_, ?_, ?_⟩
  · intro hcl hgrid
    have hcheck : incoming_check peer pst ps lv statement =
        .error ⟨[(peer, .COST_UNEXPECTED_STATEMENT_INVALID_SENDER)],
          false, false, false, false⟩ := by
      rcases hcl with h | h
      · cases hact : lv.active with
        | some a => rw [hact] at h; exact Bool.noConfusion h
        | none => simp only [incoming_check, hact, hgrid]
      · cases hact : lv.active with
        | some a =>
          rw [hact] at h
          simp only [incoming_check, hact, h, hgrid]
        | none => simp only [incoming_check, hact, hgrid]
    rw [hunfold, hcheck]
  · intro checked hok hins hfresh
    rw [hunfold, hok]
    simp only [incoming_import, hins, Bool.true_eq_false, if_false, hfresh]
  · intro checked hok hins hknown
    rw [hunfold, hok]
    simp only [incoming_import, hins, Bool.true_eq_false, if_false, hknown]

theorem C4_handle_incoming_statement_cases_witness :
    handle_incoming_statement c4State 3 1 ⟨2, .Seconded 9, true⟩ =
      ⟨[(3, .COST_UNEXPECTED_STATEMENT_INVALID_SENDER)],
        false, false, false, false⟩ :=
  (C4_handle_incoming_statement_cases c4State 3 1 ⟨2, .Seconded 9, true⟩ _ _ _ _ _
    rfl rfl rfl rfl rfl rfl).1 (Or.inl rfl) rfl

theorem eraseIdx_eq_erase_of_get? : ∀ (l : List Nat) (i : Nat) (a : Nat),
    l.Nodup → l.get? i = some a → l.eraseIdx i = l.erase a := by
  intro l
  induction l with
  | nil => intro i a _ h; cases i <;> exact Option.noConfusion h
  | cons hd tl ih =>
    intro i a hnd hg
    cases i with
    | zero =>
      have hh : hd = a := Option.some.inj hg
      subst hh
      simp [List.eraseIdx]
    | succ n =>
      have hmem : a ∈ tl := List.get?_mem hg
      have hne : ¬ (hd == a) := by
        intro hcontra
        have : hd = a := by simpa using hcontra
        subst this
        exact (List.nodup_cons.mp hnd).1 hmem
      rw [List.eraseIdx_cons_succ, List.erase_cons_tail hne]
      congr 1
      exact ih n a (List.nodup_cons.mp hnd).2 hg

theorem respond_step_inv (cap : Nat) (hcap : 0 < cap) (st : ResponderState)
    (e : ResponderEvent) (h : ResponderInv cap st) :
    ResponderInv cap (respond_step cap st e) := by
  obtain ⟨hnp, hna, hlen, hiff⟩ := h
  cases e with
  | Served i =>
    show ResponderInv cap (complete_one st i)
    unfold complete_one
    cases hg : st.pending_out.get? i with
    | none => exact ⟨hnp, hna, hlen, hiff⟩
    | some p =>
      have her : st.pending_out.eraseIdx i = st.pending_out.erase p :=
        eraseIdx_eq_erase_of_get? _ i p hnp hg
      rw [her]
      refine ⟨hnp.erase p, hna.erase p, ?_, ?_⟩
      · exact le_trans (List.Sublist.length_le (List.erase_sublist p _)) hlen
      · intro q
        rw [hna.mem_erase_iff, hnp.mem_erase_iff]
        exact and_congr_right (fun _ => hiff q)
  | NewRequest peer pick =>
    simp only [respond_step]
    by_cases hc : st.active_peers.contains peer = true
    · rw [if_pos hc]
      exact ⟨hnp, hna, hlen, hiff⟩
    · rw [if_neg hc]
      have hpa : peer ∉ st.active_peers := by
        intro hm
        exact hc (List.elem_eq_true_of_mem hm)
      have hpp : peer ∉ st.pending_out := fun hm => hpa ((hiff peer).mpr hm)
      by_cases hcap2 : cap ≤ st.pending_out.length
      · rw [if_pos hcap2]
        have hlen_pos : 0 < st.pending_out.length := lt_of_lt_of_le hcap hcap2
        have hlt : pick % st.pending_out.length < st.pending_out.length :=
          Nat.mod_lt _ hlen_pos
        obtain ⟨p, hg⟩ : ∃ p,
            st.pending_out.get? (pick % st.pending_out.length) = some p := by
          cases hg : st.pending_out.get? (pick % st.pending_out.length) with
          | none =>
            have := List.get?_eq_none.mp hg
            exact absurd this (Nat.not_le_of_lt hlt)
          | some p => exact ⟨p, rfl⟩
        unfold complete_one
        rw [hg]
        have her := eraseIdx_eq_erase_of_get? _ _ p hnp hg
        rw [her]
        have hmemp : p ∈ st.pending_out := List.get?_mem hg
        have hppe : peer ∉ st.pending_out.erase p :=
          fun hm => hpp (List.Sublist.mem hm (List.erase_sublist p _))
        have hpae : peer ∉ st.active_peers.erase p :=
          fun hm => hpa (List.Sublist.mem hm (List.erase_sublist p _))
        refine ⟨?_, ?_, ?_, ?_⟩
        · exact (hnp.erase p).append (List.nodup_singleton peer)
            (fun a ha hb => hppe ((List.mem_singleton.mp hb) ▸ ha))
        · exact List.nodup_cons.mpr ⟨hpae, hna.erase p⟩
        · have hL : (st.pending_out.erase p).length = st.pending_out.length - 1 :=
            List.length_erase_of_mem hmemp
          have hcapeq : st.pending_out.length = cap := le_antisymm hlen hcap2
          rw [List.length_append, hL, hcapeq]
          simp only [List.length_singleton]
          have : cap - 1 + 1 = cap := Nat.succ_pred_eq_of_pos hcap
          rw [this]
        · intro q
          rw [List.mem_cons, hna.mem_erase_iff, List.mem_append,
            hnp.mem_erase_iff, List.mem_singleton]
          constructor
          · rintro (hq | ⟨hqp, hqa⟩)
            · exact Or.inr hq
            · exact Or.inl ⟨hqp, (hiff q).mp hqa⟩
          · rintro (⟨hqp, hqm⟩ | hq)
            · exact Or.inr ⟨hqp, (hiff q).mpr hqm⟩
            · exact Or.inl hq
      · rw [if_neg hcap2]
        refine ⟨?_, ?_, ?_, ?_⟩
        · exact hnp.append (List.nodup_singleton peer)
            (fun a ha hb => hpp ((List.mem_singleton.mp hb) ▸ ha))
        · exact List.nodup_cons.mpr ⟨hpa, hna⟩
        · rw [List.length_append]
          simp only [List.length_singleton]
          exact Nat.succ_le_of_lt (Nat.lt_of_not_le hcap2)
        · intro q
          rw [List.mem_cons, List.mem_append, List.mem_singleton]
          constructor
          · rintro (hq | hqa)
            · exact Or.inr hq
            · exact Or.inl ((hiff q).mp hqa)
          · rintro (hqm | hq)
            · exact Or.inr ((hiff q).mpr hqm)
            · exact Or.inl hq

theorem respond_foldl_inv (cap : Nat) (hcap : 0 < cap) :
    ∀ (events : List ResponderEvent) (st : ResponderState), ResponderInv cap st →
      ResponderInv cap (events.foldl (respond_step cap) st) := by
  intro events
  induction events with
  | nil => intro st h; exact h
  | cons e tl ih =>
    intro st h
    exact ih _ (respond_step_inv cap hcap st e h)

/-- C8: in every reachable state of the responder loop, the number of in-flight
responses never exceeds the parallelism cap, in-flight responses belong to
pairwise distinct peers with `active_peers` tracking exactly those peers, and a
new request from a peer already being served is dropped without any response. -/
theorem C8_respond_task_bounds (cap : Nat) (hcap : 0 < cap)
    (events : List ResponderEvent) :
    ((respond_run cap events).pending_out.length ≤ cap ∧
      (respond_run cap events).pending_out.Nodup ∧
      (∀ p, p ∈ (respond_run cap events).active_peers ↔
        p ∈ (respond_run cap events).pending_out)) ∧
    (∀ st peer pick, st.active_peers.contains peer = true →
      respond_step cap st (.NewRequest peer pick) = st) := by
  constructor
  · have h0 : ResponderInv cap respond_init :=
      ⟨List.nodup_nil, List.nodup_nil, Nat.zero_le _, fun p => Iff.rfl⟩
    have hinv := respond_foldl_inv cap hcap events respond_init h0
    exact ⟨hinv.2.2.1, hinv.1, hinv.2.2.2⟩
  · intro st peer pick hc
    simp only [respond_step]
    rw [if_pos hc]

theorem C8_respond_task_bounds_witness :
    0 < 1 ∧ (respond_run 1 [ResponderEvent.NewRequest 5 0]).pending_out.length ≤ 1 :=
  ⟨Nat.one_pos,
    ((C8_respond_task_bounds 1 Nat.one_pos [ResponderEvent.NewRequest 5 0]).1).1⟩

theorem mem_attach_discovery (dk : List AuthorityDiscoveryId)
    (pairs : List (ValidatorIndex × DirectTargetKind)) (v : ValidatorIndex)
    (a : AuthorityDiscoveryId) (k : DirectTargetKind) :
    (v, a, k) ∈ attach_discovery dk pairs ↔ (v, k) ∈ pairs ∧ dk.get? v = some a := by
  unfold attach_discovery
  rw [List.mem_filterMap]
  constructor
  · rintro ⟨⟨v', k'⟩, hmem, hmap⟩
    rcases Option.map_eq_some'.mp hmap with ⟨x, hdk, heq⟩
    injection heq with h1 h2
    injection h2 with h2a h2b
    subst h1
    subst h2a
    subst h2b
    exact ⟨hmem, hdk⟩
  · rintro ⟨hp, hdk⟩
    refine ⟨(v, k), hp, ?_⟩
    show Option.map (fun x => (v, x, k)) (dk.get? v) = some (v, a, k)
    rw [hdk]
    rfl

theorem mem_circulate_pairs_cluster (cl gl : List ValidatorIndex)
    (v : ValidatorIndex) :
    (v, DirectTargetKind.Cluster) ∈ circulate_pairs cl gl ↔ v ∈ cl := by
  unfold circulate_pairs
  rw [List.mem_append]
  constructor
  · rintro (h | h)
    · rcases List.mem_map.mp h with ⟨w, hw, heq⟩
      injection heq with h1 _
      exact h1 ▸ hw
    · rcases List.mem_map.mp h with ⟨w, hw, heq⟩
      injection heq with _ h2
      exact DirectTargetKind.noConfusion h2
  · intro h
    exact Or.inl (List.mem_map.mpr ⟨v, h, rfl⟩)

theorem mem_circulate_pairs_grid (cl gl : List ValidatorIndex)
    (v : ValidatorIndex) :
    (v, DirectTargetKind.Grid) ∈ circulate_pairs cl gl ↔ v ∈ gl := by
  unfold circulate_pairs
  rw [List.mem_append]
  constructor
  · rintro (h | h)
    · rcases List.mem_map.mp h with ⟨w, hw, heq⟩
      injection heq with _ h2
      exact DirectTargetKind.noConfusion h2
    · rcases List.mem_map.mp h with ⟨w, hw, heq⟩
      injection heq with h1 _
      exact h1 ▸ hw
  · intro h
    exact Or.inr (List.mem_map.mpr ⟨v, h, rfl⟩)

theorem attach_discovery_fst_sublist (dk : List AuthorityDiscoveryId) :
    ∀ pairs : List (ValidatorIndex × DirectTargetKind),
      ((attach_discovery dk pairs).map (fun t => t.1)).Sublist (pairs.map Prod.fst) := by
  intro pairs
  induction pairs with
  | nil => exact List.Sublist.refl _
  | cons hd tl ih =>
    obtain ⟨v, k⟩ := hd
    unfold attach_discovery at ih ⊢
    simp only [List.filterMap_cons]
    cases hdk : dk.get? v with
    | none =>
      simp only [hdk, Option.map_none']
      exact ih.cons _
    | some a =>
      simp only [hdk, Option.map_some', List.map_cons]
      exact ih.cons₂ _

theorem circulate_pairs_fst (cl gl : List ValidatorIndex) :
    (circulate_pairs cl gl).map Prod.fst = cl ++ gl := by
  unfold circulate_pairs
  rw [List.map_append, List.map_map, List.map_map]
  rw [show (Prod.fst ∘ fun v : ValidatorIndex => (v, DirectTargetKind.Cluster)) = id from rfl]
  rw [show (Prod.fst ∘ fun v : ValidatorIndex => (v, DirectTargetKind.Grid)) = id from rfl]
  rw [List.map_id, List.map_id]

theorem attach_fst_nodup (dk : List AuthorityDiscoveryId)
    (cl gl : List ValidatorIndex) (hc : cl.Nodup) (hg : gl.Nodup)
    (hdisj : ∀ v, v ∈ cl → v ∈ gl → False) :
    ((attach_discovery dk (circulate_pairs cl gl)).map (fun t => t.1)).Nodup := by
  have hsub := attach_discovery_fst_sublist dk (circulate_pairs cl gl)
  have hnd : ((circulate_pairs cl gl).map Prod.fst).Nodup := by
    rw [circulate_pairs_fst]
    exact hc.append hg (fun a ha hb => hdisj a ha hb)
  exact List.Nodup.sublist hsub hnd

theorem not_mem_of_contains_eq_false {l : List Nat} {v : Nat}
    (h : l.contains v = false) : v ∉ l :=
  fun hm => Bool.noConfusion ((List.elem_eq_true_of_mem hm).symm.trans h)

theorem mem_circulate_send_targets (relay_parent : Hash)
    (authorities : List (AuthorityDiscoveryId × PeerId))
    (peers : List (PeerId × PeerState)) (active : Option ActiveValidatorState)
    (originator : ValidatorIndex) (compact_statement : CompactStatement)
    (targets : List (ValidatorIndex × AuthorityDiscoveryId × DirectTargetKind))
    (p : PeerId) (k : DirectTargetKind)
    (h : (p, k) ∈ circulate_send_targets relay_parent authorities peers active
      originator compact_statement targets) :
    ∃ t ∈ targets, t.2.2 = k ∧ authorities.lookup t.2.1 = some p := by
  obtain ⟨t, htm, htf⟩ := List.mem_filterMap.mp h
  refine ⟨t, htm, ?_⟩
  obtain ⟨v, a, kk⟩ := t
  cases hla : authorities.lookup a with
  | none => rw [hla] at htf; exact Option.noConfusion htf
  | some p2 =>
    rw [hla] at htf
    simp only [] at htf
    by_cases hconn : (match peers.lookup p2 with
        | some pstate => pstate.knows_relay_parent relay_parent
        | none => false) = true
    · rw [if_pos hconn] at htf
      cases kk with
      | Cluster =>
        cases active with
        | none => exact Option.noConfusion htf
        | some act =>
          simp only [] at htf
          by_cases hcs : act.cluster_tracker.can_send v originator compact_statement = true
          · rw [if_pos hcs] at htf
            injection htf with heq
            injection heq with he1 he2
            subst he1
            subst he2
            exact ⟨rfl, rfl⟩
          · rw [if_neg hcs] at htf
            exact Option.noConfusion htf
      | Grid =>
        injection htf with heq
        injection heq with he1 he2
        subst he1
        subst he2
        exact ⟨rfl, rfl⟩
    · rw [if_neg hconn] at htf
      exact Option.noConfusion htf

/-- C6 counterexample: the claim that no peer is sent the same statement via
both the cluster and grid paths fails when a single peer bears the authority
ids of both a cluster target and a grid target (reachable, since peer
connection maps every declared authority id of the peer to that one `PeerId`):
peer `7` appears in the send list once per path. -/
theorem C6_counterexample :
    (7, DirectTargetKind.Cluster) ∈
      (circulate_statement 1 c6xPrs c6xPs c6xCands c6xAuth c6xPeers
        c6xStmt).statement_to_peers ∧
    (7, DirectTargetKind.Grid) ∈
      (circulate_statement 1 c6xPrs c6xPs c6xCands c6xAuth c6xPeers
        c6xStmt).statement_to_peers := by
  constructor
  · show (7, DirectTargetKind.Cluster) ∈
      [(7, DirectTargetKind.Cluster), (7, DirectTargetKind.Grid)]
    exact List.mem_cons_self _ _
  · show (7, DirectTargetKind.Grid) ∈
      [(7, DirectTargetKind.Cluster), (7, DirectTargetKind.Grid)]
    exact List.mem_cons_of_mem _ (List.mem_cons_self _ _)

/-- C6 (amended): in `circulate_statement`, cluster targets are computed only when the
candidate is confirmed and the originator's group equals the local validator's
group; when the cluster is relevant, every grid target inside the cluster
target set is excluded from the grid path; hence no validator is targeted
through both paths, the computed target list has pairwise-distinct validators
(given duplicate-free tracker answers), and — with duplicate-free discovery
keys and an injective authority map — no peer is sent the statement via both
the cluster and the grid path. -/
theorem C6_circulate_statement_dedup (relay_parent : Hash)
    (relay_parent_state : PerRelayParentState) (per_session : PerSessionState)
    (candidates : Candidates) (authorities : List (AuthorityDiscoveryId × PeerId))
    (peers : List (PeerId × PeerState)) (statement : UncheckedSignedStatement)
    (lv : LocalValidatorState)
    (hlv : relay_parent_state.local_validator = some lv) :
    (∀ v a, (v, a, DirectTargetKind.Cluster) ∈
        (circulate_statement relay_parent relay_parent_state per_session candidates
          authorities peers statement).targets →
      candidates.is_confirmed statement.payload.candidate_hash = true ∧
      ∃ active, lv.active = some active ∧
        (some active.group ==
          per_session.groups.by_validator_index statement.validator_index) = true) ∧
    (∀ v a b, (v, a, DirectTargetKind.Cluster) ∈
        (circulate_statement relay_parent relay_parent_state per_session candidates
          authorities peers statement).targets →
      (v, b, DirectTargetKind.Grid) ∈
        (circulate_statement relay_parent relay_parent_state per_session candidates
          authorities peers statement).targets → False) ∧
    ((∀ active, lv.active = some active → active.cluster_tracker.targets.Nodup) →
      (lv.grid_tracker.direct_statement_targets statement.validator_index
        statement.payload).Nodup →
      (((circulate_statement relay_parent relay_parent_state per_session candidates
          authorities peers statement).targets.map (fun t => t.1)).Nodup)) ∧
    (per_session.session_info.discovery_keys.Nodup →
      (∀ a1 a2 p, authorities.lookup a1 = some p →
        authorities.lookup a2 = some p → a1 = a2) →
      ∀ p, (p, DirectTargetKind.Cluster) ∈
          (circulate_statement relay_parent relay_parent_state per_session candidates
            authorities peers statement).statement_to_peers →
        (p, DirectTargetKind.Grid) ∈
          (circulate_statement relay_parent relay_parent_state per_session candidates
            authorities peers statement).statement_to_peers → False) := by
  have hcore : ∀ active : ActiveValidatorState,
      (candidates.is_confirmed statement.payload.candidate_hash &&
        (some active.group ==
          per_session.groups.by_validator_index statement.validator_index)) = true →
      ∀ v, v ∈ (active.cluster_tracker.targets.filter
          (fun w => active.cluster_tracker.can_send w statement.validator_index
            statement.payload)).filter (fun w => !(w == active.index)) →
        v ∈ (lv.grid_tracker.direct_statement_targets statement.validator_index
          statement.payload).filter
          (fun w => !(some active.group ==
              per_session.groups.by_validator_index statement.validator_index) ||
            !(active.cluster_tracker.targets.contains w)) → False := by
    intro active hcond v hvc hvg
    have hvL : v ∈ active.cluster_tracker.targets :=
      List.mem_of_mem_filter (List.mem_of_mem_filter hvc)
    have hpred := List.of_mem_filter hvg
    have hconj := hcond
    rw [Bool.and_eq_true] at hconj
    rw [hconj.2] at hpred
    simp only [Bool.not_true, Bool.false_or] at hpred
    have hcont : active.cluster_tracker.targets.contains v = false := by
      cases hcc : active.cluster_tracker.targets.contains v
      · rfl
      · rw [hcc] at hpred; exact Bool.noConfusion hpred
    exact not_mem_of_contains_eq_false hcont hvL
  refine ⟨?_, ?_, ?_, ?_⟩
  · intro v a h
    simp only [circulate_statement, hlv] at h
    cases hact : lv.active with
    | some active =>
      rw [hact] at h
      simp only [] at h
      by_cases hcond : (candidates.is_confirmed statement.payload.candidate_hash &&
          (some active.group ==
            per_session.groups.by_validator_index statement.validator_index)) = true
      · have hconj := hcond
        rw [Bool.and_eq_true] at hconj
        exact ⟨hconj.1, active, rfl, hconj.2⟩
      · rw [if_neg hcond] at h
        simp only [Option.getD_none] at h
        rw [mem_attach_discovery, mem_circulate_pairs_cluster] at h
        exact absurd h.1 (List.not_mem_nil v)
    | none =>
      rw [hact] at h
      simp only [Option.getD_none] at h
      rw [mem_attach_discovery, mem_circulate_pairs_cluster] at h
      exact absurd h.1 (List.not_mem_nil v)
  · intro v a b h1 h2
    simp only [circulate_statement, hlv] at h1 h2
    cases hact : lv.active with
    | some active =>
      rw [hact] at h1 h2
      simp only [] at h1 h2
      by_cases hcond : (candidates.is_confirmed statement.payload.candidate_hash &&
          (some active.group ==
            per_session.groups.by_validator_index statement.validator_index)) = true
      · rw [if_pos hcond] at h1 h2
        simp only [Option.getD_some] at h1 h2
        rw [mem_attach_discovery, mem_circulate_pairs_cluster] at h1
        rw [mem_attach_discovery, mem_circulate_pairs_grid] at h2
        exact hcore active hcond v h1.1 h2.1
      · rw [if_neg hcond] at h1
        simp only [Option.getD_none] at h1
        rw [mem_attach_discovery, mem_circulate_pairs_cluster] at h1
        exact absurd h1.1 (List.not_mem_nil v)
    | none =>
      rw [hact] at h1
      simp only [Option.getD_none] at h1
      rw [mem_attach_discovery, mem_circulate_pairs_cluster] at h1
      exact absurd h1.1 (List.not_mem_nil v)
  · intro hclnd hglnd
    simp only [circulate_statement, hlv]
    cases hact : lv.active with
    | some active =>
      simp only []
      by_cases hcond : (candidates.is_confirmed statement.payload.candidate_hash &&
          (some active.group ==
            per_session.groups.by_validator_index statement.validator_index)) = true
      · rw [if_pos hcond]
        simp only [Option.getD_some]
        apply attach_fst_nodup
        · exact List.Nodup.filter _ (List.Nodup.filter _ (hclnd active hact))
        · exact List.Nodup.filter _ hglnd
        · exact hcore active hcond
      · rw [if_neg hcond]
        simp only [Option.getD_none]
        apply attach_fst_nodup
        · exact List.nodup_nil
        · exact List.Nodup.filter _ hglnd
        · intro w hw _
          exact absurd hw (List.not_mem_nil w)
    | none =>
      simp only [Option.getD_none]
      apply attach_fst_nodup
      · exact List.nodup_nil
      · exact List.Nodup.filter _ hglnd
      · intro w hw _
        exact absurd hw (List.not_mem_nil w)
  · intro hdknd hinj p h1 h2
    simp only [circulate_statement, hlv] at h1 h2
    cases hact : lv.active with
    | some active =>
      rw [hact] at h1 h2
      simp only [] at h1 h2
      by_cases hcond : (candidates.is_confirmed statement.payload.candidate_hash &&
          (some active.group ==
            per_session.groups.by_validator_index statement.validator_index)) = true
      · rw [if_pos hcond] at h1 h2
        simp only [Option.getD_some] at h1 h2
        obtain ⟨t1, ht1m, hk1, ha1⟩ :=
          mem_circulate_send_targets _ _ _ _ _ _ _ _ _ h1
        obtain ⟨t2, ht2m, hk2, ha2⟩ :=
          mem_circulate_send_targets _ _ _ _ _ _ _ _ _ h2
        obtain ⟨v1, a1, k1⟩ := t1
        obtain ⟨v2, a2, k2⟩ := t2
        simp only [] at hk1 hk2 ha1 ha2
        subst hk1
        subst hk2
        rw [mem_attach_discovery, mem_circulate_pairs_cluster] at ht1m
        rw [mem_attach_discovery, mem_circulate_pairs_grid] at ht2m
        obtain ⟨hv1, hdk1⟩ := ht1m
        obtain ⟨hv2, hdk2⟩ := ht2m
        have haeq : a1 = a2 := hinj a1 a2 p ha1 ha2
        have hlt1 : v1 < per_session.session_info.discovery_keys.length :=
          get?_some_lt _ v1 a1 hdk1
        have hveq : v1 = v2 := by
          apply List.getElem?_inj hlt1 hdknd
          rw [← List.get?_eq_getElem?, ← List.get?_eq_getElem?, hdk1, hdk2, haeq]
        subst hveq
        exact hcore active hcond v1 hv1 hv2
      · rw [if_neg hcond] at h1
        simp only [Option.getD_none] at h1
        obtain ⟨t1, ht1m, hk1, ha1⟩ :=
          mem_circulate_send_targets _ _ _ _ _ _ _ _ _ h1
        obtain ⟨v1, a1, k1⟩ := t1
        simp only [] at hk1
        subst hk1
        rw [mem_attach_discovery, mem_circulate_pairs_cluster] at ht1m
        exact absurd ht1m.1 (List.not_mem_nil v1)
    | none =>
      rw [hact] at h1
      simp only [Option.getD_none] at h1
      obtain ⟨t1, ht1m, hk1, ha1⟩ :=
        mem_circulate_send_targets _ _ _ _ _ _ _ _ _ h1
      obtain ⟨v1, a1, k1⟩ := t1
      simp only [] at hk1
      subst hk1
      rw [mem_attach_discovery, mem_circulate_pairs_cluster] at ht1m
      exact absurd ht1m.1 (List.not_mem_nil v1)

theorem C6_circulate_statement_dedup_witness :
    ((circulate_statement 1 c6Prs c6Ps trivialCands [] [] c6Stmt).targets.map
      (fun t => t.1)).Nodup :=
  ((C6_circulate_statement_dedup 1 c6Prs c6Ps trivialCands [] [] c6Stmt c6Lv
    rfl).2.2.1) (fun _ h => Option.noConfusion h) (by decide)
